import Mathlib

/-!
# Renderer memory-state coordinator and neighbouring helpers

A shallow embedding of `content/browser/memory/memory_coordinator.cc`, followed by
embeddings of single functions of other files of the collection (the prefetch-predictor
browser test helpers, `gpu_memory_buffer_support.cc`, `security_handler.cc`,
`out_of_process_native_runner.cc`, `system_tray_client.cc`,
`synthetic_pointer_action_params.cc` and `action_logger_util.cc`).

For the memory coordinator:

* `children_` (a `std::map<int, ChildInfo>`) is an association list kept in key order;
  `find`, `erase` and the insert-or-overwrite of `CreateChildInfoMapEntry` are the three
  map operations the file uses.
* A mojo endpoint `mojom::ChildMemoryCoordinatorPtr` is `Option Nat`: `none` is an unbound
  pointer, `some c` a pointer bound to the renderer-side endpoint `c`.
* Every `OnStateChange` call made on a child endpoint is recorded in the list returned by
  `SetChildMemoryState`, so "no message sent" is "the list is empty".
* The compile-time switch `OS_ANDROID` and the static lookup `RenderProcessHost::FromID`
  are parameters.
-/

namespace content

/-- Enum `mojom::MemoryState`. -/
inductive MemoryState where
  | UNKNOWN
  | NORMAL
  | THROTTLED
  | SUSPENDED
  deriving DecidableEq, Repr

/-- Class `MemoryCoordinatorHandleImpl`: the process id it was created for, the child
endpoint `child_` (unbound until `AddChild`), and the process id captured by the
connection-error handler installed on `binding_` (`none` when no handler was installed). -/
structure MemoryCoordinatorHandleImpl where
  render_process_id_ : Int
  child_ : Option Nat
  connection_error_handler : Option Int
  deriving DecidableEq, Repr

/-- Constructor of `MemoryCoordinatorHandleImpl` (lines 39-47): `child_` is default
constructed, hence unbound, and no error handler is installed yet. -/
def MemoryCoordinatorHandleImpl.new (render_process_id : Int) : MemoryCoordinatorHandleImpl :=
  { render_process_id_ := render_process_id, child_ := none, connection_error_handler := none }

/-- The condition asserted by `DCHECK(!child_.is_bound())` on entry to `AddChild`. -/
def MemoryCoordinatorHandleImpl.AddChildPrecondition (h : MemoryCoordinatorHandleImpl) : Bool :=
  h.child_.isNone

/-- Method `MemoryCoordinatorHandleImpl::AddChild` (lines 51-56), its effect on the handle:
`child_ = std::move(child)`. The call to `OnChildAdded` is made by the callers below. -/
def MemoryCoordinatorHandleImpl.AddChild (h : MemoryCoordinatorHandleImpl) (child : Option Nat) :
    MemoryCoordinatorHandleImpl :=
  { h with child_ := child }

/-- Modelled from the spec: the struct `MemoryCoordinator::ChildInfo` is declared in
`memory_coordinator.h`, which is not among the sources; its three fields are the ones the
spec lists and `CreateChildInfoMapEntry` assigns. The owned handle is never null in a
registry entry, so it is stored by value. -/
structure ChildInfo where
  memory_state : MemoryState
  is_visible : Bool
  handle : MemoryCoordinatorHandleImpl
  deriving DecidableEq, Repr

/-- The registry type `ChildInfoMap` (`std::map<int, ChildInfo>`). -/
abbrev ChildInfoMap := List (Int × ChildInfo)

/-- Lookup `children_.find(id)`: the entry stored under `id`, `none` for `end()`. -/
def ChildInfoMap.find : ChildInfoMap → Int → Option ChildInfo
  | [], _ => none
  | (k, v) :: rest, id => if k = id then some v else ChildInfoMap.find rest id

/-- Removal `children_.erase(id)`. -/
def ChildInfoMap.erase : ChildInfoMap → Int → ChildInfoMap
  | [], _ => []
  | (k, v) :: rest, id =>
    if k = id then ChildInfoMap.erase rest id else (k, v) :: ChildInfoMap.erase rest id

/-- Write through an iterator: `iter->second = f(iter->second)` for the entry found under
`id`; nothing happens when there is no such entry. -/
def ChildInfoMap.modify : ChildInfoMap → Int → (ChildInfo → ChildInfo) → ChildInfoMap
  | [], _, _ => []
  | (k, v) :: rest, id, f =>
    if k = id then (k, f v) :: rest else (k, v) :: ChildInfoMap.modify rest id f

/-- The effect of `children_[id]` followed by assignment of every field: the entry under
`id` becomes `v`, created in key order when absent and overwritten when present. -/
def ChildInfoMap.insertOrAssign : ChildInfoMap → Int → ChildInfo → ChildInfoMap
  | [], id, v => [(id, v)]
  | (k, w) :: rest, id, v =>
    if id < k then (id, v) :: (k, w) :: rest
    else if k = id then (id, v) :: rest
    else (k, w) :: ChildInfoMap.insertOrAssign rest id v

/-- Interface `MemoryCoordinatorDelegate`: its one query. -/
structure MemoryCoordinatorDelegate where
  CanSuspendBackgroundedRenderer : Int → Bool

/-- The part of `RenderProcessHost` the coordinator reads. -/
structure RenderProcessHost where
  IsProcessBackgrounded : Bool
  deriving DecidableEq, Repr

/-- Class `MemoryCoordinator`: the optional delegate and the child registry. -/
structure MemoryCoordinator where
  delegate_ : Option MemoryCoordinatorDelegate
  children_ : ChildInfoMap

/-- A call `child->OnStateChange(state)` made on the endpoint `child`. -/
structure OnStateChange where
  child : Nat
  state : MemoryState
  deriving DecidableEq, Repr

/-- What a call of `SetChildMemoryState` produces: the returned boolean, the coordinator
afterwards and the `OnStateChange` calls it made, in order. -/
structure SetChildMemoryStateResult where
  ret : Bool
  coordinator : MemoryCoordinator
  sent : List OnStateChange

namespace MemoryCoordinator

/-- The coordinator with an empty registry. -/
def empty (delegate : Option MemoryCoordinatorDelegate) : MemoryCoordinator :=
  { delegate_ := delegate, children_ := [] }

/-- Method `MemoryCoordinator::CreateChildInfoMapEntry` (lines 196-207). -/
def CreateChildInfoMapEntry (mc : MemoryCoordinator) (render_process_id : Int)
    (handle : MemoryCoordinatorHandleImpl) : MemoryCoordinator :=
  let child_info : ChildInfo :=
    { memory_state := MemoryState.NORMAL, is_visible := true, handle := handle }
  { mc with children_ := mc.children_.insertOrAssign render_process_id child_info }

/-- Method `MemoryCoordinator::CreateHandle` (lines 64-74). -/
def CreateHandle (mc : MemoryCoordinator) (render_process_id : Int) : MemoryCoordinator :=
  let handle := MemoryCoordinatorHandleImpl.new render_process_id
  let handle := { handle with connection_error_handler := some render_process_id }
  mc.CreateChildInfoMapEntry render_process_id handle

/-- Modelled from the spec: `MemoryCoordinator::OnChildAdded` is declared in
`memory_coordinator.h`, which is not among the sources. The spec describes it as the
callback run when the renderer attaches its endpoint, with no effect of its own on the
registry: the handle is already bound by `AddChild` when it runs. -/
def OnChildAdded (mc : MemoryCoordinator) (_render_process_id : Int) : MemoryCoordinator :=
  mc

/-- The mojo call `AddChild(child)` arriving on the handle owned by the entry for `id`
(lines 51-56): that handle's `child_` is assigned, then `OnChildAdded(id)` runs. A handle
that is no longer in the registry has been destroyed and receives nothing. -/
def AddChild (mc : MemoryCoordinator) (id : Int) (child : Option Nat) : MemoryCoordinator :=
  let mc1 := { mc with children_ :=
    mc.children_.modify id (fun c => { c with handle := c.handle.AddChild child }) }
  mc1.OnChildAdded id

/-- Method `MemoryCoordinator::AddChildForTesting` (lines 148-157). -/
def AddChildForTesting (mc : MemoryCoordinator) (dummy_render_process_id : Int)
    (child : Option Nat) : MemoryCoordinator :=
  let handle := MemoryCoordinatorHandleImpl.new dummy_render_process_id
  let handle := handle.AddChild child
  let mc1 := mc.OnChildAdded dummy_render_process_id
  mc1.CreateChildInfoMapEntry dummy_render_process_id handle

/-- Method `MemoryCoordinator::OnConnectionError` (lines 159-161). -/
def OnConnectionError (mc : MemoryCoordinator) (render_process_id : Int) : MemoryCoordinator :=
  { mc with children_ := mc.children_.erase render_process_id }

/-- Method `MemoryCoordinator::CanSuspendRenderer` (lines 163-171). -/
def CanSuspendRenderer (FromID : Int → Option RenderProcessHost) (mc : MemoryCoordinator)
    (render_process_id : Int) : Bool :=
  match mc.delegate_ with
  | none => true
  | some delegate =>
    match FromID render_process_id with
    | none => false
    | some render_process_host =>
      if render_process_host.IsProcessBackgrounded = false then false
      else delegate.CanSuspendBackgroundedRenderer render_process_id

/-- Method `MemoryCoordinator::OverrideGlobalState` (lines 173-188); `OS_ANDROID` is the
compile-time platform switch. -/
def OverrideGlobalState (OS_ANDROID : Bool) (memory_state : MemoryState) (child : ChildInfo) :
    MemoryState :=
  if child.is_visible = true ∧ memory_state = MemoryState.SUSPENDED then MemoryState.THROTTLED
  else if OS_ANDROID = true ∧ child.is_visible = false ∧ memory_state = MemoryState.NORMAL then
    MemoryState.THROTTLED
  else memory_state

/-- Method `MemoryCoordinator::SetChildMemoryState` (lines 76-106). -/
def SetChildMemoryState (OS_ANDROID : Bool) (FromID : Int → Option RenderProcessHost)
    (mc : MemoryCoordinator) (render_process_id : Int) (memory_state : MemoryState) :
    SetChildMemoryStateResult :=
  if memory_state = MemoryState.UNKNOWN then
    { ret := false, coordinator := mc, sent := [] }
  else
    match mc.children_.find render_process_id with
    | none => { ret := false, coordinator := mc, sent := [] }
    | some child =>
      match child.handle.child_ with
      | none => { ret := false, coordinator := mc, sent := [] }
      | some endpoint =>
        let memory_state := OverrideGlobalState OS_ANDROID memory_state child
        if child.memory_state = memory_state then
          { ret := true, coordinator := mc, sent := [] }
        else if memory_state = MemoryState.SUSPENDED ∧
            CanSuspendRenderer FromID mc render_process_id = false then
          { ret := false, coordinator := mc, sent := [] }
        else
          let children := mc.children_.modify render_process_id
            (fun c => { c with memory_state := memory_state })
          { ret := true,
            coordinator := { mc with children_ := children },
            sent := [{ child := endpoint, state := memory_state }] }

/-- Method `MemoryCoordinator::GetChildMemoryState` (lines 108-114). -/
def GetChildMemoryState (mc : MemoryCoordinator) (render_process_id : Int) : MemoryState :=
  match mc.children_.find render_process_id with
  | none => MemoryState.UNKNOWN
  | some child => child.memory_state

end MemoryCoordinator

/-! ## Sequences of coordinator operations -/

/-- One call made on the coordinator from outside: the four public entry points of the file
and the mojo call `AddChild` arriving on the handle of an entry. A `SetChildMemoryState`
call carries the process directory as it is at the time of the call. -/
inductive Op where
  | CreateHandle (id : Int)
  | AddChild (id : Int) (child : Option Nat)
  | AddChildForTesting (id : Int) (child : Option Nat)
  | SetChildMemoryState (FromID : Int → Option RenderProcessHost) (id : Int) (s : MemoryState)
  | OnConnectionError (id : Int)

/-- The coordinator after one operation. -/
def Op.apply (OS_ANDROID : Bool) (mc : MemoryCoordinator) : Op → MemoryCoordinator
  | Op.CreateHandle id => mc.CreateHandle id
  | Op.AddChild id child => mc.AddChild id child
  | Op.AddChildForTesting id child => mc.AddChildForTesting id child
  | Op.SetChildMemoryState FromID id s =>
    (MemoryCoordinator.SetChildMemoryState OS_ANDROID FromID mc id s).coordinator
  | Op.OnConnectionError id => mc.OnConnectionError id

/-- The coordinator after a sequence of operations, applied from left to right. -/
def MemoryCoordinator.run (OS_ANDROID : Bool) (mc : MemoryCoordinator) (ops : List Op) :
    MemoryCoordinator :=
  ops.foldl (Op.apply OS_ANDROID) mc

/-- Whether the operation registers `id`, that is creates a registry entry for it: only
`CreateHandle` and `AddChildForTesting` call `CreateChildInfoMapEntry`. -/
def Op.registers (id : Int) : Op → Bool
  | Op.CreateHandle k => decide (k = id)
  | Op.AddChildForTesting k _ => decide (k = id)
  | _ => false

/-- Modelled from the spec: the write `is_visible = v` on the entry of `id`. No function of
`memory_coordinator.cc` performs it (the registry accessor used for it is declared in
`memory_coordinator.h`, which is not among the sources); the spec's scenario calls it
"set visible=false". Only an existing entry is written. -/
def MemoryCoordinator.SetChildIsVisible (mc : MemoryCoordinator) (id : Int) (v : Bool) :
    MemoryCoordinator :=
  { mc with children_ := (mc.children_.modify id (fun c => { c with is_visible := v })) }

/-- Scenario, step 1: `CreateHandle(7)` on the empty registry. -/
def scenarioRegistered (delegate : Option MemoryCoordinatorDelegate) : MemoryCoordinator :=
  (MemoryCoordinator.empty delegate).CreateHandle 7

/-- Scenario, step 2: the renderer binds its endpoint by calling `AddChild`. -/
def scenarioBound (delegate : Option MemoryCoordinatorDelegate) (endpoint : Nat) :
    MemoryCoordinator :=
  (scenarioRegistered delegate).AddChild 7 (some endpoint)

/-- Scenario, step 3: SUSPENDED is requested while the entry is visible. -/
def scenarioFirstRequest (OS_ANDROID : Bool) (FromID : Int → Option RenderProcessHost)
    (delegate : Option MemoryCoordinatorDelegate) (endpoint : Nat) : SetChildMemoryStateResult :=
  MemoryCoordinator.SetChildMemoryState OS_ANDROID FromID (scenarioBound delegate endpoint) 7
    MemoryState.SUSPENDED

/-- Scenario, step 4: `is_visible` is set to false. -/
def scenarioHidden (OS_ANDROID : Bool) (FromID : Int → Option RenderProcessHost)
    (delegate : Option MemoryCoordinatorDelegate) (endpoint : Nat) : MemoryCoordinator :=
  (scenarioFirstRequest OS_ANDROID FromID delegate endpoint).coordinator.SetChildIsVisible 7 false

/-- Scenario, step 5: SUSPENDED is requested again, with the process directory `FromID2`. -/
def scenarioSecondRequest (OS_ANDROID : Bool) (FromID FromID2 : Int → Option RenderProcessHost)
    (delegate : Option MemoryCoordinatorDelegate) (endpoint : Nat) : SetChildMemoryStateResult :=
  MemoryCoordinator.SetChildMemoryState OS_ANDROID FromID2
    (scenarioHidden OS_ANDROID FromID delegate endpoint) 7 MemoryState.SUSPENDED

/-! ## Sample coordinators used to instantiate the theorems -/

/-- A delegate that allows every backgrounded renderer to be suspended. -/
def permissiveDelegate : MemoryCoordinatorDelegate :=
  { CanSuspendBackgroundedRenderer := fun _ => true }

/-- A process directory in which every process exists and is backgrounded. -/
def allBackgrounded : Int → Option RenderProcessHost :=
  fun _ => some { IsProcessBackgrounded := true }

/-- A process directory that knows no process. -/
def noHosts : Int → Option RenderProcessHost :=
  fun _ => none

/-- A handle for process 7 whose child endpoint is bound to endpoint 1. -/
def boundHandle7 : MemoryCoordinatorHandleImpl :=
  { render_process_id_ := 7, child_ := some 1, connection_error_handler := some 7 }

/-- A visible, bound child for process 7 in state NORMAL. -/
def visibleChild7 : ChildInfo :=
  { memory_state := MemoryState.NORMAL, is_visible := true, handle := boundHandle7 }

/-- A coordinator with a delegate whose registry holds `visibleChild7` under id 7. -/
def coordinatorWithVisible7 : MemoryCoordinator :=
  { delegate_ := some permissiveDelegate, children_ := [(7, visibleChild7)] }

/-- A bound child for process 7 that is not visible, in state THROTTLED. -/
def hiddenChild7 : ChildInfo :=
  { memory_state := MemoryState.THROTTLED, is_visible := false, handle := boundHandle7 }

/-- A coordinator with a delegate whose registry holds `hiddenChild7` under id 7. -/
def coordinatorWithHidden7 : MemoryCoordinator :=
  { delegate_ := some permissiveDelegate, children_ := [(7, hiddenChild7)] }

/-- The representation invariant of `std::map`: the keys are strictly increasing, so no
key occurs twice. -/
abbrev ChildInfoMap.Ordered (m : ChildInfoMap) : Prop :=
  List.Pairwise (fun a b => a.1 < b.1) m

/-- The number of registry entries stored under `id`. -/
def ChildInfoMap.countKey (m : ChildInfoMap) (id : Int) : Nat :=
  (m.filter (fun e => decide (e.1 = id))).length

/-- Whether the operation is a call of `SetChildMemoryState`. -/
def Op.isSetChildMemoryState : Op → Bool
  | Op.SetChildMemoryState _ _ _ => true
  | _ => false

/-- Process 7 registers, binds endpoint 1 and is moved to THROTTLED. -/
def registerBindThrottle7 : List Op :=
  [Op.CreateHandle 7, Op.AddChild 7 (some 1),
    Op.SetChildMemoryState noHosts 7 MemoryState.THROTTLED]

/-- A coordinator without delegate whose registry holds `hiddenChild7` under id 7. -/
def coordinatorNoDelegateHidden7 : MemoryCoordinator :=
  { delegate_ := none, children_ := [(7, hiddenChild7)] }

/-! ## Memory-pressure recording (`memory_coordinator.cc`, lines 116-146) -/

/-- Enum `base::MemoryState`, the process-wide counterpart of `mojom::MemoryState`. -/
inductive BaseMemoryState where
  | UNKNOWN
  | NORMAL
  | THROTTLED
  | SUSPENDED
  deriving DecidableEq, Repr

/-- Method `MemoryCoordinator::GetCurrentMemoryState` as this file defines it
(lines 140-142), a default like `GetGlobalMemoryState`. -/
def MemoryCoordinator.GetCurrentMemoryState (_mc : MemoryCoordinator) : BaseMemoryState :=
  BaseMemoryState.UNKNOWN

/-- Enum `SyntheticPointerActionParams::PointerActionType`, as the switch of the copy
constructor lists it. -/
inductive PointerActionType where
  | NOT_INITIALIZED
  | PRESS
  | MOVE
  | RELEASE
  | IDLE
  | FINISH
  deriving DecidableEq, Repr

/-- Enum `SyntheticGestureParams::GestureSourceType`. -/
inductive GestureSourceType where
  | DEFAULT_INPUT
  | TOUCH_INPUT
  | MOUSE_INPUT
  deriving DecidableEq, Repr

/-- Class `gfx::PointF` over a coordinate type `F`. -/
structure PointF (F : Type) where
  x : F
  y : F
  deriving DecidableEq, Repr

/-- Class `SyntheticPointerActionParams`: the member `gesture_source_type` of its base
`SyntheticGestureParams` and its own three members. -/
structure SyntheticPointerActionParams (F : Type) where
  gesture_source_type : GestureSourceType
  pointer_action_type_ : PointerActionType
  position_ : PointF F
  index_ : Int
  deriving DecidableEq, Repr

/-- Copy constructor of `SyntheticPointerActionParams` (lines 22-40). The base is copied,
`pointer_action_type_` is initialised from `other`, and the switch assigns `index_` and
`position_` as the action type requires. A member the switch does not assign keeps what
default initialisation gave it: the zero point for `position_`, and for the `int` member
`index_` an indeterminate value, passed as `indeterminate`. -/
def SyntheticPointerActionParams.copy {F : Type} [Zero F] (indeterminate : Int)
    (other : SyntheticPointerActionParams F) : SyntheticPointerActionParams F :=
  let init : SyntheticPointerActionParams F :=
    { gesture_source_type := other.gesture_source_type,
      pointer_action_type_ := other.pointer_action_type_,
      position_ := { x := 0, y := 0 },
      index_ := indeterminate }
  match other.pointer_action_type_ with
  | PointerActionType.PRESS => { init with index_ := other.index_, position_ := other.position_ }
  | PointerActionType.MOVE => { init with index_ := other.index_, position_ := other.position_ }
  | PointerActionType.RELEASE => { init with index_ := other.index_ }
  | PointerActionType.IDLE => { init with index_ := other.index_ }
  | PointerActionType.NOT_INITIALIZED => { init with index_ := other.index_ }
  | PointerActionType.FINISH => init

/-! ## `security_handler.cc` -/

namespace devtools.security

/-- Struct `SecurityStyleExplanation`: the three members `AddExplanations` reads. -/
structure SecurityStyleExplanation where
  summary : String
  description : String
  has_certificate : Bool
  deriving DecidableEq, Repr

/-- Protocol object `SecurityStateExplanation` built by `AddExplanations`. -/
structure SecurityStateExplanation where
  security_state : String
  summary : String
  description : String
  has_certificate : Bool
  deriving DecidableEq, Repr

/-- Struct `SecurityStyleExplanations`: the four explanation lists. -/
structure SecurityStyleExplanations where
  broken_explanations : List SecurityStyleExplanation
  unauthenticated_explanations : List SecurityStyleExplanation
  secure_explanations : List SecurityStyleExplanation
  info_explanations : List SecurityStyleExplanation
  deriving DecidableEq, Repr

/-- The protocol constants `kSecurityStateInsecure`, `kSecurityStateNeutral`,
`kSecurityStateSecure` and `kSecurityStateInfo`; they are generated code, so their values
are parameters here. -/
structure SecurityStateNames where
  kSecurityStateInsecure : String
  kSecurityStateNeutral : String
  kSecurityStateSecure : String
  kSecurityStateInfo : String
  deriving DecidableEq, Repr

/-- Function `AddExplanations` (lines 44-57): one `push_back` per element of
`explanations_to_add`, in order. -/
def AddExplanations (security_style : String)
    (explanations_to_add : List SecurityStyleExplanation)
    (explanations : List SecurityStateExplanation) : List SecurityStateExplanation :=
  explanations_to_add.foldl
    (fun acc it => acc ++ [{ security_state := security_style, summary := it.summary,
                             description := it.description,
                             has_certificate := it.has_certificate }])
    explanations

/-- The `explanations` vector that `SecurityHandler::DidChangeVisibleSecurityState`
(lines 100-111) builds and passes to `set_explanations`. -/
def DidChangeVisibleSecurityState_explanations (names : SecurityStateNames)
    (security_style_explanations : SecurityStyleExplanations) : List SecurityStateExplanation :=
  let explanations : List SecurityStateExplanation := []
  let explanations := AddExplanations names.kSecurityStateInsecure
    security_style_explanations.broken_explanations explanations
  let explanations := AddExplanations names.kSecurityStateNeutral
    security_style_explanations.unauthenticated_explanations explanations
  let explanations := AddExplanations names.kSecurityStateSecure
    security_style_explanations.secure_explanations explanations
  let explanations := AddExplanations names.kSecurityStateInfo
    security_style_explanations.info_explanations explanations
  explanations

/-- The tagging of one explanation with a security state, as the claim words it. -/
def tagged (security_state : String) (it : SecurityStyleExplanation) :
    SecurityStateExplanation :=
  { security_state := security_state, summary := it.summary, description := it.description,
    has_certificate := it.has_certificate }

end devtools.security

end content

/-! ## `resource_prefetch_predictor_browsertest.cc` -/

namespace predictors

/-- One step of a stable sort: `x`, which precedes all of `l` in the input, is placed
before the first element that does not compare less than it. -/
def stableInsert {α : Type} (comp : α → α → Bool) (x : α) : List α → List α
  | [] => [x]
  | y :: ys => if comp y x = true then y :: stableInsert comp x ys else x :: y :: ys

/-- Library function `std::stable_sort(first, last, comp)`: the range ordered by `comp`,
elements that compare equivalent keeping their input order. For a strict weak order this
fixes the result; it is computed here by insertion. -/
def stable_sort {α : Type} (comp : α → α → Bool) : List α → List α
  | [] => []
  | x :: xs => stableInsert comp x (stable_sort comp xs)

/-- The loop of `std::unique`: an element equivalent (by `pred`) to the last element kept
is dropped, any other element is kept and becomes the last element kept. -/
def uniqueFrom {α : Type} (pred : α → α → Bool) (last : α) : List α → List α
  | [] => []
  | y :: ys =>
    if pred last y = true then uniqueFrom pred last ys else y :: uniqueFrom pred y ys

/-- Library function `std::unique(first, last, pred)` followed by `erase` of the tail it
returns: of every run of consecutive equivalent elements only the first is kept. -/
def unique {α : Type} (pred : α → α → Bool) : List α → List α
  | [] => []
  | x :: xs => x :: uniqueFrom pred x xs

/-- Struct `URLRequestSummary`: its `resource_url` (a `GURL`, of type `U`, compared by
`operator<` and `operator==`, a linear order and its equality) and the rest of its members. -/
structure URLRequestSummary (U : Type) (R : Type) where
  resource_url : U
  rest : R
  deriving DecidableEq, Repr

/-- The lambda passed to `std::stable_sort` (lines 96-98). -/
def lessByUrl {U R : Type} [LinearOrder U] (x y : URLRequestSummary U R) : Bool :=
  decide (x.resource_url < y.resource_url)

/-- The lambda passed to `std::unique` (lines 101-103). -/
def sameUrl {U R : Type} [LinearOrder U] (x y : URLRequestSummary U R) : Bool :=
  decide (x.resource_url = y.resource_url)

/-- Function `RemoveDuplicateSubresources` (lines 94-105). -/
def RemoveDuplicateSubresources {U R : Type} [LinearOrder U]
    (subresources : List (URLRequestSummary U R)) : List (URLRequestSummary U R) :=
  unique sameUrl (stable_sort lessByUrl subresources)

/-- Whether the summary is for the URL `u`. -/
def hasUrl {U R : Type} [LinearOrder U] (u : U) (x : URLRequestSummary U R) : Bool :=
  decide (x.resource_url = u)

/-- Struct `RedirectEdge` (lines 70-74). -/
structure RedirectEdge (U : Type) where
  code : Nat
  url : U
  deriving DecidableEq, Repr

/-- The member `redirects_`, a `std::map<GURL, RedirectEdge>`, as an association list in
which a key is looked up from the front. -/
abbrev RedirectMap (U : Type) := List (U × RedirectEdge U)

/-- Lookup `redirects_.find(url)`; `none` is `end()`. -/
def RedirectMap.find {U : Type} [DecidableEq U] : RedirectMap U → U → Option (RedirectEdge U)
  | [], _ => none
  | (k, v) :: rest, url => if k = url then some v else RedirectMap.find rest url

/-- Call `redirects_.insert(std::make_pair(url, edge))`: the pair is added only when `url`
has no entry yet. -/
def RedirectMap.insert {U : Type} [DecidableEq U] (m : RedirectMap U) (url : U)
    (edge : RedirectEdge U) : RedirectMap U :=
  match RedirectMap.find m url with
  | some _ => m
  | none => m ++ [(url, edge)]

/-- The loop of `AddRedirectChain` (lines 256-261), started at `current`. -/
def AddRedirectChainFrom {U : Type} [DecidableEq U] :
    RedirectMap U → U → List (RedirectEdge U) → RedirectMap U
  | redirects, _, [] => redirects
  | redirects, current, edge :: rest =>
    AddRedirectChainFrom (RedirectMap.insert redirects current edge) edge.url rest

/-- Method `AddRedirectChain` (lines 253-262): `redirects_` afterwards. -/
def AddRedirectChain {U : Type} [DecidableEq U] (redirects : RedirectMap U) (initial_url : U)
    (redirect_chain : List (RedirectEdge U)) : RedirectMap U :=
  AddRedirectChainFrom redirects initial_url redirect_chain

/-- Method `GetRedirectEndpoint` (lines 322-331): the `while (true)` loop run for at most
`fuel` iterations; `none` means the loop had not left after `fuel` lookups. -/
def GetRedirectEndpoint {U : Type} [DecidableEq U] (redirects : RedirectMap U) :
    Nat → U → Option U
  | 0, _ => none
  | fuel + 1, current =>
    match RedirectMap.find redirects current with
    | none => some current
    | some edge => GetRedirectEndpoint redirects fuel edge.url

/-- One redirect: `a` has an entry in the map and it leads to `b`. -/
def RedirectStep {U : Type} [DecidableEq U] (redirects : RedirectMap U) (a b : U) : Prop :=
  ∃ edge, RedirectMap.find redirects a = some edge ∧ edge.url = b

/-- URL `b` is reached from `a` by following redirects zero or more times. -/
def Redirects {U : Type} [DecidableEq U] (redirects : RedirectMap U) (a b : U) : Prop :=
  Relation.ReflTransGen (RedirectStep redirects) a b

/-- No cycle is reachable from `initial_url`: no URL reached from it leads back to itself
by one or more redirects. -/
def NoCycleFrom {U : Type} [DecidableEq U] (redirects : RedirectMap U) (initial_url : U) :
    Prop :=
  ∀ u, Redirects redirects initial_url u → ¬ Relation.TransGen (RedirectStep redirects) u u

end predictors

/-! ## `gpu_memory_buffer_support.cc` -/

namespace gpu

/-- The values of `gfx::BufferFormat` that the file names. -/
inductive BufferFormat where
  | R_8
  | RG_88
  | BGR_565
  | RGBA_4444
  | RGBX_8888
  | RGBA_8888
  | BGRX_8888
  | BGRA_8888
  | UYVY_422
  | YVU_420
  | YUV_420_BIPLANAR
  deriving DecidableEq, Repr

/-- Enum `gfx::BufferUsage`. -/
inductive BufferUsage where
  | GPU_READ
  | SCANOUT
  | GPU_READ_CPU_READ_WRITE
  | GPU_READ_CPU_READ_WRITE_PERSISTENT
  deriving DecidableEq, Repr

/-- What the file reads from `base::CommandLine::ForCurrentProcess()`: the value of
`--use-gl` (empty when absent) and the presence of the two native-buffer switches. -/
structure CommandLine where
  use_gl : String
  has_enable_native_gpu_memory_buffers : Bool
  has_disable_native_gpu_memory_buffers : Bool
  deriving DecidableEq, Repr

/-- The compile-time switches the file tests. -/
structure BuildConfig where
  OS_MACOSX : Bool
  USE_OZONE : Bool
  deriving DecidableEq, Repr

/-- Function `AreNativeGpuMemoryBuffersEnabled` (lines 16-30); `osmesa_name` is the
constant `gl::kGLImplementationOSMesaName`. -/
def AreNativeGpuMemoryBuffersEnabled (build : BuildConfig) (osmesa_name : String)
    (command_line : CommandLine) : Bool :=
  if command_line.use_gl = osmesa_name then false
  else if build.OS_MACOSX = true then !command_line.has_disable_native_gpu_memory_buffers
  else command_line.has_enable_native_gpu_memory_buffers

/-- Call `configurations.insert(c)` on the hash set. -/
def insertConfiguration (configurations : List (BufferFormat × BufferUsage))
    (c : BufferFormat × BufferUsage) : List (BufferFormat × BufferUsage) :=
  if c ∈ configurations then configurations else configurations ++ [c]

/-- The nested `for` loops of lines 50-55 and 74-79: every supported pair of a format and
a usage is inserted. -/
def insertSupported (supported : BufferFormat → BufferUsage → Bool)
    (formats : List BufferFormat) (usages : List BufferUsage)
    (configurations : List (BufferFormat × BufferUsage)) : List (BufferFormat × BufferUsage) :=
  formats.foldl
    (fun acc format => usages.foldl
      (fun acc2 usage =>
        if supported format usage = true then insertConfiguration acc2 (format, usage)
        else acc2)
      acc)
    configurations

/-- Array `kNativeFormats` (lines 36-45). -/
def kNativeFormats : List BufferFormat :=
  [BufferFormat.R_8, BufferFormat.RG_88, BufferFormat.BGR_565, BufferFormat.RGBA_4444,
    BufferFormat.RGBA_8888, BufferFormat.BGRA_8888, BufferFormat.UYVY_422,
    BufferFormat.YVU_420, BufferFormat.YUV_420_BIPLANAR]

/-- Array `kNativeUsages` (lines 46-49). -/
def kNativeUsages : List BufferUsage :=
  [BufferUsage.GPU_READ, BufferUsage.SCANOUT, BufferUsage.GPU_READ_CPU_READ_WRITE,
    BufferUsage.GPU_READ_CPU_READ_WRITE_PERSISTENT]

/-- Array `kGPUReadWriteFormats` (lines 67-71). -/
def kGPUReadWriteFormats : List BufferFormat :=
  [BufferFormat.BGR_565, BufferFormat.RGBA_8888, BufferFormat.RGBX_8888,
    BufferFormat.BGRA_8888, BufferFormat.BGRX_8888, BufferFormat.UYVY_422,
    BufferFormat.YVU_420, BufferFormat.YUV_420_BIPLANAR]

/-- Array `kGPUReadWriteUsages` (lines 72-73). -/
def kGPUReadWriteUsages : List BufferUsage :=
  [BufferUsage.GPU_READ, BufferUsage.SCANOUT]

/-- Function `GetNativeGpuMemoryBufferConfigurations` (lines 32-83); `supported` is
`IsNativeGpuMemoryBufferConfigurationSupported`. -/
def GetNativeGpuMemoryBufferConfigurations (build : BuildConfig) (osmesa_name : String)
    (command_line : CommandLine) (supported : BufferFormat → BufferUsage → Bool) :
    List (BufferFormat × BufferUsage) :=
  let configurations : List (BufferFormat × BufferUsage) := []
  let configurations :=
    if AreNativeGpuMemoryBuffersEnabled build osmesa_name command_line = true then
      insertSupported supported kNativeFormats kNativeUsages configurations
    else configurations
  let force_native_gpu_read_write_formats : Bool :=
    if build.USE_OZONE = true ∨ build.OS_MACOSX = true then
      decide (command_line.use_gl ≠ osmesa_name)
    else false
  if force_native_gpu_read_write_formats = true then
    insertSupported supported kGPUReadWriteFormats kGPUReadWriteUsages configurations
  else configurations

end gpu

/-! ## `out_of_process_native_runner.cc` -/

namespace service_manager

/-- What `AppCompleted` does to the outside, in order: `Join()` on a child process host,
destruction of a host by `reset()`, and `Run()` of a completion callback. -/
inductive RunnerEvent where
  | Join (host : Nat)
  | Destroy (host : Nat)
  | Run (callback : Nat)
  deriving DecidableEq, Repr

/-- Class `OutOfProcessNativeRunner`: the stored completion callback (`none` is a null
`base::Closure`) and the owned child process host (`none` is a null `unique_ptr`). -/
structure OutOfProcessNativeRunner where
  app_completed_callback_ : Option Nat
  child_process_host_ : Option Nat
  deriving DecidableEq, Repr

/-- The condition of `DCHECK(app_completed_callback_.is_null())` on entry to `Start`. -/
def OutOfProcessNativeRunner.StartPrecondition (r : OutOfProcessNativeRunner) : Bool :=
  r.app_completed_callback_.isNone

/-- Method `OutOfProcessNativeRunner::Start` (lines 35-50), its effect on the runner:
the callback is stored and a new `ChildProcessHost`, `new_host`, replaces the old one. -/
def OutOfProcessNativeRunner.Start (_r : OutOfProcessNativeRunner) (new_host : Nat)
    (app_completed_callback : Option Nat) : OutOfProcessNativeRunner :=
  { app_completed_callback_ := app_completed_callback, child_process_host_ := some new_host }

/-- Method `OutOfProcessNativeRunner::AppCompleted` (lines 52-61): the runner afterwards
and the events, in order. -/
def OutOfProcessNativeRunner.AppCompleted (r : OutOfProcessNativeRunner) :
    OutOfProcessNativeRunner × List RunnerEvent :=
  let joined : List RunnerEvent :=
    match r.child_process_host_ with
    | some host => [RunnerEvent.Join host, RunnerEvent.Destroy host]
    | none => []
  let app_completed_callback := r.app_completed_callback_
  let r2 : OutOfProcessNativeRunner :=
    { app_completed_callback_ := none, child_process_host_ := none }
  match app_completed_callback with
  | some callback => (r2, joined ++ [RunnerEvent.Run callback])
  | none => (r2, joined)

/-- A number of consecutive `AppCompleted` calls: the runner afterwards and the events of
each call, in call order. -/
def OutOfProcessNativeRunner.AppCompletedTimes :
    Nat → OutOfProcessNativeRunner → OutOfProcessNativeRunner × List (List RunnerEvent)
  | 0, r => (r, [])
  | n + 1, r =>
    let first := r.AppCompleted
    let later := OutOfProcessNativeRunner.AppCompletedTimes n first.1
    (later.1, first.2 :: later.2)

/-- Whether the event is the run of a callback. -/
def RunnerEvent.isRun : RunnerEvent → Bool
  | RunnerEvent.Run _ => true
  | _ => false

end service_manager

/-! ## `system_tray_client.cc` -/

namespace SystemTrayClient

/-- Enum `chromeos::LoginState::LoggedInUserType`, as the switch lists it. -/
inductive LoggedInUserType where
  | LOGGED_IN_USER_NONE
  | LOGGED_IN_USER_REGULAR
  | LOGGED_IN_USER_OWNER
  | LOGGED_IN_USER_GUEST
  | LOGGED_IN_USER_PUBLIC_ACCOUNT
  | LOGGED_IN_USER_SUPERVISED
  | LOGGED_IN_USER_KIOSK_APP
  | LOGGED_IN_USER_ARC_KIOSK_APP
  deriving DecidableEq, Repr

/-- Enum `ash::LoginStatus`, the values the function returns. -/
inductive LoginStatus where
  | NOT_LOGGED_IN
  | LOCKED
  | USER
  | OWNER
  | GUEST
  | PUBLIC
  | SUPERVISED
  | KIOSK_APP
  | ARC_KIOSK_APP
  deriving DecidableEq, Repr

/-- The returned status, and whether the `NOTREACHED()` of line 120 was hit. -/
structure GetUserLoginStatusResult where
  status : LoginStatus
  notreached_hit : Bool
  deriving DecidableEq, Repr

/-- Method `SystemTrayClient::GetUserLoginStatus` (lines 92-122), as a function of what
`LoginState` and the session manager client answer. -/
def GetUserLoginStatus (is_user_logged_in : Bool) (is_screen_locked : Bool)
    (user_type : LoggedInUserType) : GetUserLoginStatusResult :=
  if is_user_logged_in = false then
    { status := LoginStatus.NOT_LOGGED_IN, notreached_hit := false }
  else if is_screen_locked = true then
    { status := LoginStatus.LOCKED, notreached_hit := false }
  else
    match user_type with
    | LoggedInUserType.LOGGED_IN_USER_NONE =>
      { status := LoginStatus.NOT_LOGGED_IN, notreached_hit := false }
    | LoggedInUserType.LOGGED_IN_USER_REGULAR =>
      { status := LoginStatus.USER, notreached_hit := false }
    | LoggedInUserType.LOGGED_IN_USER_OWNER =>
      { status := LoginStatus.OWNER, notreached_hit := false }
    | LoggedInUserType.LOGGED_IN_USER_GUEST =>
      { status := LoginStatus.GUEST, notreached_hit := false }
    | LoggedInUserType.LOGGED_IN_USER_PUBLIC_ACCOUNT =>
      { status := LoginStatus.PUBLIC, notreached_hit := false }
    | LoggedInUserType.LOGGED_IN_USER_SUPERVISED =>
      { status := LoginStatus.SUPERVISED, notreached_hit := false }
    | LoggedInUserType.LOGGED_IN_USER_KIOSK_APP =>
      { status := LoginStatus.KIOSK_APP, notreached_hit := false }
    | LoggedInUserType.LOGGED_IN_USER_ARC_KIOSK_APP =>
      { status := LoginStatus.ARC_KIOSK_APP, notreached_hit := false }

/-- The table of the claim: the status each logged-in user type is mapped to. -/
def statusOfUserType : LoggedInUserType → LoginStatus
  | LoggedInUserType.LOGGED_IN_USER_NONE => LoginStatus.NOT_LOGGED_IN
  | LoggedInUserType.LOGGED_IN_USER_REGULAR => LoginStatus.USER
  | LoggedInUserType.LOGGED_IN_USER_OWNER => LoginStatus.OWNER
  | LoggedInUserType.LOGGED_IN_USER_GUEST => LoginStatus.GUEST
  | LoggedInUserType.LOGGED_IN_USER_PUBLIC_ACCOUNT => LoginStatus.PUBLIC
  | LoggedInUserType.LOGGED_IN_USER_SUPERVISED => LoginStatus.SUPERVISED
  | LoggedInUserType.LOGGED_IN_USER_KIOSK_APP => LoginStatus.KIOSK_APP
  | LoggedInUserType.LOGGED_IN_USER_ARC_KIOSK_APP => LoginStatus.ARC_KIOSK_APP

end SystemTrayClient

/-! ## `action_logger_util.cc` -/

namespace ui.test

/-- The `while (action)` loop of `JoinActions` (lines 93-98) over the arguments that
precede the terminating `NULL`, with `actions` as accumulated so far. -/
def JoinActionsLoop (actions : String) : List String → String
  | [] => actions
  | action :: rest =>
    let actions1 := if actions ≠ "" then actions ++ "," else actions
    JoinActionsLoop (actions1 ++ action) rest

/-- Function `JoinActions` (lines 88-101), applied to the argument strings that precede
the terminating `NULL`. -/
def JoinActions (actions : List String) : String :=
  JoinActionsLoop "" actions

/-- The claim's description of the result: the strings in order, with one `,` between
consecutive strings and none before the first or after the last. -/
def commaSeparated : List String → String
  | [] => ""
  | [a] => a
  | a :: b :: rest => a ++ "," ++ commaSeparated (b :: rest)

end ui.test

/-! ## Sample inputs for the helpers -/

/-- A command line that selects OSMesa and also passes the enable switch. -/
def gpu.osmesaCommandLine : gpu.CommandLine :=
  { use_gl := "osmesa", has_enable_native_gpu_memory_buffers := true,
    has_disable_native_gpu_memory_buffers := false }

/-- The Mac build, without Ozone. -/
def gpu.macBuild : gpu.BuildConfig :=
  { OS_MACOSX := true, USE_OZONE := false }

/-- Three subresources over URLs numbered 1 and 2; URL 2 occurs twice, first with rest 10. -/
def predictors.sampleSubresources : List (predictors.URLRequestSummary Nat Nat) :=
  [{ resource_url := 2, rest := 10 }, { resource_url := 1, rest := 20 },
    { resource_url := 2, rest := 30 }]

/-- The redirect chain of the test `LearningAfterRedirectChain`, with the URLs numbered:
the initial URL is 0 and the chain leads through 1 and 2 to 3. -/
def predictors.sampleChain : List (predictors.RedirectEdge Nat) :=
  [{ code := 302, url := 1 }, { code := 301, url := 2 }, { code := 302, url := 3 }]

namespace content

/-! ## Facts about the registry operations -/

theorem ChildInfoMap.find_cons_self (k : Int) (v : ChildInfo) (rest : ChildInfoMap) :
    ChildInfoMap.find ((k, v) :: rest) k = some v := by
  simp only [ChildInfoMap.find, if_true]

theorem ChildInfoMap.find_cons_ne (k id : Int) (v : ChildInfo) (rest : ChildInfoMap)
    (h : k ≠ id) : ChildInfoMap.find ((k, v) :: rest) id = ChildInfoMap.find rest id := by
  simp only [ChildInfoMap.find, if_neg h]

theorem ChildInfoMap.find_modify_self (m : ChildInfoMap) (id : Int) (f : ChildInfo → ChildInfo) :
    ChildInfoMap.find (ChildInfoMap.modify m id f) id = (ChildInfoMap.find m id).map f := by
  induction m with
  | nil => rfl
  | cons e rest ih =>
    obtain ⟨k, v⟩ := e
    by_cases hk : k = id
    · subst hk
      simp only [ChildInfoMap.modify, if_true, ChildInfoMap.find_cons_self, Option.map_some']
    · simp only [ChildInfoMap.modify, if_neg hk, ChildInfoMap.find_cons_ne _ _ _ _ hk, ih]

theorem ChildInfoMap.find_modify_ne (m : ChildInfoMap) (id other : Int)
    (f : ChildInfo → ChildInfo) (h : other ≠ id) :
    ChildInfoMap.find (ChildInfoMap.modify m id f) other = ChildInfoMap.find m other := by
  induction m with
  | nil => rfl
  | cons e rest ih =>
    obtain ⟨k, v⟩ := e
    by_cases hk : k = id
    · subst hk
      have hk2 : k ≠ other := fun h2 => h h2.symm
      simp only [ChildInfoMap.modify, if_true, ChildInfoMap.find_cons_ne _ _ _ _ hk2]
    · by_cases hk2 : k = other
      · subst hk2
        simp only [ChildInfoMap.modify, if_neg hk, ChildInfoMap.find_cons_self]
      · simp only [ChildInfoMap.modify, if_neg hk, ChildInfoMap.find_cons_ne _ _ _ _ hk2, ih]

theorem ChildInfoMap.modify_of_find_none (m : ChildInfoMap) (id : Int)
    (f : ChildInfo → ChildInfo) (h : ChildInfoMap.find m id = none) :
    ChildInfoMap.modify m id f = m := by
  induction m with
  | nil => rfl
  | cons e rest ih =>
    obtain ⟨k, v⟩ := e
    by_cases hk : k = id
    · subst hk
      rw [ChildInfoMap.find_cons_self] at h
      exact absurd h (by simp)
    · rw [ChildInfoMap.find_cons_ne _ _ _ _ hk] at h
      simp only [ChildInfoMap.modify, if_neg hk, ih h]

theorem ChildInfoMap.modify_of_fixed (m : ChildInfoMap) (id : Int) (f : ChildInfo → ChildInfo)
    (c : ChildInfo) (h : ChildInfoMap.find m id = some c) (hf : f c = c) :
    ChildInfoMap.modify m id f = m := by
  induction m with
  | nil => rfl
  | cons e rest ih =>
    obtain ⟨k, v⟩ := e
    by_cases hk : k = id
    · subst hk
      rw [ChildInfoMap.find_cons_self] at h
      have hv : v = c := Option.some.inj h
      subst hv
      simp only [ChildInfoMap.modify, if_true, hf]
    · rw [ChildInfoMap.find_cons_ne _ _ _ _ hk] at h
      simp only [ChildInfoMap.modify, if_neg hk, ih h]

theorem ChildInfoMap.find_erase_self (m : ChildInfoMap) (id : Int) :
    ChildInfoMap.find (ChildInfoMap.erase m id) id = none := by
  induction m with
  | nil => rfl
  | cons e rest ih =>
    obtain ⟨k, v⟩ := e
    by_cases hk : k = id
    · simp only [ChildInfoMap.erase, if_pos hk, ih]
    · simp only [ChildInfoMap.erase, if_neg hk, ChildInfoMap.find_cons_ne _ _ _ _ hk, ih]

theorem ChildInfoMap.find_erase_ne (m : ChildInfoMap) (id other : Int) (h : other ≠ id) :
    ChildInfoMap.find (ChildInfoMap.erase m id) other = ChildInfoMap.find m other := by
  induction m with
  | nil => rfl
  | cons e rest ih =>
    obtain ⟨k, v⟩ := e
    by_cases hk : k = id
    · have hk2 : k ≠ other := fun h2 => h (h2.symm.trans hk)
      simp only [ChildInfoMap.erase, if_pos hk, ChildInfoMap.find_cons_ne _ _ _ _ hk2, ih]
    · by_cases hk2 : k = other
      · subst hk2
        simp only [ChildInfoMap.erase, if_neg hk, ChildInfoMap.find_cons_self]
      · simp only [ChildInfoMap.erase, if_neg hk, ChildInfoMap.find_cons_ne _ _ _ _ hk2, ih]

theorem ChildInfoMap.find_insertOrAssign_self (m : ChildInfoMap) (id : Int) (v : ChildInfo) :
    ChildInfoMap.find (ChildInfoMap.insertOrAssign m id v) id = some v := by
  induction m with
  | nil => simp only [ChildInfoMap.insertOrAssign, ChildInfoMap.find_cons_self]
  | cons e rest ih =>
    obtain ⟨k, w⟩ := e
    by_cases h1 : id < k
    · simp only [ChildInfoMap.insertOrAssign, if_pos h1, ChildInfoMap.find_cons_self]
    · by_cases hk : k = id
      · simp only [ChildInfoMap.insertOrAssign, if_neg h1, if_pos hk,
          ChildInfoMap.find_cons_self]
      · simp only [ChildInfoMap.insertOrAssign, if_neg h1, if_neg hk,
          ChildInfoMap.find_cons_ne _ _ _ _ hk, ih]

theorem ChildInfoMap.find_insertOrAssign_ne (m : ChildInfoMap) (id other : Int) (v : ChildInfo)
    (h : other ≠ id) :
    ChildInfoMap.find (ChildInfoMap.insertOrAssign m id v) other = ChildInfoMap.find m other := by
  have h2 : id ≠ other := fun h3 => h h3.symm
  induction m with
  | nil =>
    simp only [ChildInfoMap.insertOrAssign, ChildInfoMap.find_cons_ne _ _ _ _ h2]
  | cons e rest ih =>
    obtain ⟨k, w⟩ := e
    by_cases h1 : id < k
    · simp only [ChildInfoMap.insertOrAssign, if_pos h1, ChildInfoMap.find_cons_ne _ _ _ _ h2]
    · by_cases hk : k = id
      · have hk2 : k ≠ other := fun h3 => h (h3.symm.trans hk)
        simp only [ChildInfoMap.insertOrAssign, if_neg h1, if_pos hk,
          ChildInfoMap.find_cons_ne _ _ _ _ h2, ChildInfoMap.find_cons_ne _ _ _ _ hk2]
      · by_cases hk2 : k = other
        · subst hk2
          simp only [ChildInfoMap.insertOrAssign, if_neg h1, if_neg hk,
            ChildInfoMap.find_cons_self]
        · simp only [ChildInfoMap.insertOrAssign, if_neg h1, if_neg hk,
            ChildInfoMap.find_cons_ne _ _ _ _ hk2, ih]

/-! ## The four paths of `SetChildMemoryState` -/

namespace MemoryCoordinator

theorem SetChildMemoryState_of_unknown (A : Bool) (FromID : Int → Option RenderProcessHost)
    (mc : MemoryCoordinator) (id : Int) :
    SetChildMemoryState A FromID mc id MemoryState.UNKNOWN
      = { ret := false, coordinator := mc, sent := [] } := by
  simp only [SetChildMemoryState, if_true]

theorem SetChildMemoryState_of_absent (A : Bool) (FromID : Int → Option RenderProcessHost)
    (mc : MemoryCoordinator) (id : Int) (s : MemoryState)
    (h : mc.children_.find id = none) :
    SetChildMemoryState A FromID mc id s = { ret := false, coordinator := mc, sent := [] } := by
  unfold SetChildMemoryState
  rw [h]
  split <;> rfl

theorem SetChildMemoryState_of_unbound (A : Bool) (FromID : Int → Option RenderProcessHost)
    (mc : MemoryCoordinator) (id : Int) (s : MemoryState) (child : ChildInfo)
    (h : mc.children_.find id = some child) (hb : child.handle.child_ = none) :
    SetChildMemoryState A FromID mc id s = { ret := false, coordinator := mc, sent := [] } := by
  unfold SetChildMemoryState
  rw [h]
  simp only [hb]
  split <;> rfl

theorem SetChildMemoryState_of_bound (A : Bool) (FromID : Int → Option RenderProcessHost)
    (mc : MemoryCoordinator) (id : Int) (s : MemoryState) (child : ChildInfo) (endpoint : Nat)
    (hs : s ≠ MemoryState.UNKNOWN)
    (h : mc.children_.find id = some child) (hb : child.handle.child_ = some endpoint) :
    SetChildMemoryState A FromID mc id s =
      if child.memory_state = OverrideGlobalState A s child then
        { ret := true, coordinator := mc, sent := [] }
      else if OverrideGlobalState A s child = MemoryState.SUSPENDED ∧
          CanSuspendRenderer FromID mc id = false then
        { ret := false, coordinator := mc, sent := [] }
      else
        { ret := true,
          coordinator := { mc with children_ := (mc.children_.modify id
            (fun c => { c with memory_state := OverrideGlobalState A s child })) },
          sent := [{ child := endpoint, state := OverrideGlobalState A s child }] } := by
  unfold SetChildMemoryState
  rw [if_neg hs, h]
  simp only [hb]

theorem GetChildMemoryState_of_find (mc : MemoryCoordinator) (id : Int) (child : ChildInfo)
    (h : mc.children_.find id = some child) : mc.GetChildMemoryState id = child.memory_state := by
  simp only [GetChildMemoryState, h]

theorem GetChildMemoryState_of_absent (mc : MemoryCoordinator) (id : Int)
    (h : mc.children_.find id = none) : mc.GetChildMemoryState id = MemoryState.UNKNOWN := by
  simp only [GetChildMemoryState, h]

/-- C1: `SetChildMemoryState` returns false exactly when the requested state is UNKNOWN, or
the registry has no entry for the id, or the entry's child endpoint is not bound, or the
state obtained from `OverrideGlobalState` is SUSPENDED, differs from the stored state and
`CanSuspendRenderer` answers false; in every other case it returns true. This holds on
both platform variants. -/
theorem SetChildMemoryState_ret_false_iff (A : Bool) (FromID : Int → Option RenderProcessHost)
    (mc : MemoryCoordinator) (id : Int) (s : MemoryState) :
    ((SetChildMemoryState A FromID mc id s).ret = false ↔
      (s = MemoryState.UNKNOWN ∨ mc.children_.find id = none ∨
        ∃ child, mc.children_.find id = some child ∧
          (child.handle.child_ = none ∨
            (OverrideGlobalState A s child = MemoryState.SUSPENDED ∧
              OverrideGlobalState A s child ≠ child.memory_state ∧
              CanSuspendRenderer FromID mc id = false)))) ∧
    ((SetChildMemoryState A FromID mc id s).ret = true ↔
      ¬ (s = MemoryState.UNKNOWN ∨ mc.children_.find id = none ∨
        ∃ child, mc.children_.find id = some child ∧
          (child.handle.child_ = none ∨
            (OverrideGlobalState A s child = MemoryState.SUSPENDED ∧
              OverrideGlobalState A s child ≠ child.memory_state ∧
              CanSuspendRenderer FromID mc id = false)))) := by
  have key : (SetChildMemoryState A FromID mc id s).ret = false ↔
      (s = MemoryState.UNKNOWN ∨ mc.children_.find id = none ∨
        ∃ child, mc.children_.find id = some child ∧
          (child.handle.child_ = none ∨
            (OverrideGlobalState A s child = MemoryState.SUSPENDED ∧
              OverrideGlobalState A s child ≠ child.memory_state ∧
              CanSuspendRenderer FromID mc id = false))) := by
    by_cases hs : s = MemoryState.UNKNOWN
    · subst hs
      rw [SetChildMemoryState_of_unknown]
      simp
    · cases hf : mc.children_.find id with
      | none =>
        rw [SetChildMemoryState_of_absent A FromID mc id s hf]
        simp
      | some child =>
        cases hb : child.handle.child_ with
        | none =>
          rw [SetChildMemoryState_of_unbound A FromID mc id s child hf hb]
          simp [hb]
        | some endpoint =>
          rw [SetChildMemoryState_of_bound A FromID mc id s child endpoint hs hf hb]
          by_cases h1 : child.memory_state = OverrideGlobalState A s child
          · rw [if_pos h1]
            simp [hs, hb, h1]
          · by_cases h2 : OverrideGlobalState A s child = MemoryState.SUSPENDED ∧
                CanSuspendRenderer FromID mc id = false
            · rw [if_neg h1, if_pos h2]
              have h3 : OverrideGlobalState A s child ≠ child.memory_state :=
                fun h4 => h1 h4.symm
              simp [hs, hb, h2.1, h2.2]
              exact fun h4 => h1 (h4.symm.trans h2.1.symm)
            · rw [if_neg h1, if_neg h2]
              simp only [hs, hb, false_or, Option.some.injEq, exists_eq_left', false_iff,
                Bool.true_eq_false, not_and, reduceCtorEq]
              intro h5 _ h6
              exact h2 ⟨h5, h6⟩
  refine ⟨key, ?_⟩
  rw [← key]
  cases (SetChildMemoryState A FromID mc id s).ret <;> simp

theorem OverrideGlobalState_congr (A : Bool) (s x : MemoryState) (child : ChildInfo) :
    OverrideGlobalState A s { child with memory_state := x } = OverrideGlobalState A s child := by
  rfl

/-- C2: for a bound entry, whenever `SetChildMemoryState` returns true the entry stored for
the id afterwards is the old one with `memory_state` replaced by
`OverrideGlobalState(requested, child)` computed on the entry before the call, which is what
`GetChildMemoryState` then returns; and if that effective state differed from the stored
state, exactly one `OnStateChange` carrying it was sent, to that child's endpoint. -/
theorem SetChildMemoryState_true_stores_effective (A : Bool)
    (FromID : Int → Option RenderProcessHost) (mc : MemoryCoordinator) (id : Int)
    (s : MemoryState) (child : ChildInfo) (endpoint : Nat)
    (hf : mc.children_.find id = some child) (hb : child.handle.child_ = some endpoint)
    (hr : (SetChildMemoryState A FromID mc id s).ret = true) :
    (SetChildMemoryState A FromID mc id s).coordinator.children_.find id
        = some { child with memory_state := OverrideGlobalState A s child } ∧
      (SetChildMemoryState A FromID mc id s).coordinator.GetChildMemoryState id
        = OverrideGlobalState A s child ∧
      (OverrideGlobalState A s child ≠ child.memory_state →
        (SetChildMemoryState A FromID mc id s).sent
          = [{ child := endpoint, state := OverrideGlobalState A s child }]) := by
  by_cases hs : s = MemoryState.UNKNOWN
  · subst hs
    rw [SetChildMemoryState_of_unknown] at hr
    exact absurd hr (by simp)
  · rw [SetChildMemoryState_of_bound A FromID mc id s child endpoint hs hf hb] at hr ⊢
    by_cases h1 : child.memory_state = OverrideGlobalState A s child
    · rw [if_pos h1]
      have hc : ({ child with memory_state := OverrideGlobalState A s child } : ChildInfo)
          = child := by
        rw [← h1]
      refine ⟨by rw [hc]; exact hf, ?_, fun h2 => absurd h1.symm h2⟩
      rw [GetChildMemoryState_of_find mc id child hf, h1]
    · by_cases h2 : OverrideGlobalState A s child = MemoryState.SUSPENDED ∧
          CanSuspendRenderer FromID mc id = false
      · rw [if_neg h1, if_pos h2] at hr
        exact absurd hr (by simp)
      · rw [if_neg h1, if_neg h2]
        have hfind : ChildInfoMap.find (ChildInfoMap.modify mc.children_ id
            (fun c => { c with memory_state := OverrideGlobalState A s child })) id
            = some { child with memory_state := OverrideGlobalState A s child } := by
          rw [ChildInfoMap.find_modify_self, hf]
          rfl
        refine ⟨hfind, ?_, fun _ => rfl⟩
        simp only [GetChildMemoryState, hfind]

/-- An instance of C2: process 7 is bound and NORMAL, THROTTLED is requested. -/
theorem SetChildMemoryState_true_stores_effective_witness :
    (SetChildMemoryState false noHosts coordinatorWithVisible7 7
        MemoryState.THROTTLED).coordinator.children_.find 7
        = some { visibleChild7 with
            memory_state := OverrideGlobalState false MemoryState.THROTTLED visibleChild7 } ∧
      (SetChildMemoryState false noHosts coordinatorWithVisible7 7
        MemoryState.THROTTLED).coordinator.GetChildMemoryState 7
        = OverrideGlobalState false MemoryState.THROTTLED visibleChild7 ∧
      (OverrideGlobalState false MemoryState.THROTTLED visibleChild7
          ≠ visibleChild7.memory_state →
        (SetChildMemoryState false noHosts coordinatorWithVisible7 7 MemoryState.THROTTLED).sent
          = [{ child := 1,
               state := OverrideGlobalState false MemoryState.THROTTLED visibleChild7 }]) :=
  SetChildMemoryState_true_stores_effective false noHosts coordinatorWithVisible7 7
    MemoryState.THROTTLED visibleChild7 1 (by decide) (by decide) (by decide)

/-- C3: `SetChildMemoryState(id, UNKNOWN)` returns false, leaves the coordinator (and so
the whole registry) unchanged and sends no notification, for every registry and id. -/
theorem SetChildMemoryState_unknown_rejected (A : Bool)
    (FromID : Int → Option RenderProcessHost) (mc : MemoryCoordinator) (id : Int) :
    (SetChildMemoryState A FromID mc id MemoryState.UNKNOWN).ret = false ∧
      (SetChildMemoryState A FromID mc id MemoryState.UNKNOWN).coordinator.children_
        = mc.children_ ∧
      (SetChildMemoryState A FromID mc id MemoryState.UNKNOWN).coordinator = mc ∧
      (SetChildMemoryState A FromID mc id MemoryState.UNKNOWN).sent = [] := by
  rw [SetChildMemoryState_of_unknown]
  exact ⟨rfl, rfl, rfl, rfl⟩

/-- C4: for an id with no registry entry, `GetChildMemoryState` returns UNKNOWN and
`SetChildMemoryState` returns false for every requested state, leaving the registry
unchanged (and sending nothing). -/
theorem unregistered_id_unknown_and_rejected (mc : MemoryCoordinator) (id : Int)
    (h : mc.children_.find id = none) :
    mc.GetChildMemoryState id = MemoryState.UNKNOWN ∧
      ∀ (A : Bool) (FromID : Int → Option RenderProcessHost) (s : MemoryState),
        (SetChildMemoryState A FromID mc id s).ret = false ∧
        (SetChildMemoryState A FromID mc id s).coordinator.children_ = mc.children_ ∧
        (SetChildMemoryState A FromID mc id s).sent = [] := by
  refine ⟨GetChildMemoryState_of_absent mc id h, fun A FromID s => ?_⟩
  rw [SetChildMemoryState_of_absent A FromID mc id s h]
  exact ⟨rfl, rfl, rfl⟩

/-- An instance of C4: id 8 in a registry that only holds id 7. -/
theorem unregistered_id_unknown_and_rejected_witness :
    coordinatorWithVisible7.children_.find 8 = none ∧
      coordinatorWithVisible7.GetChildMemoryState 8 = MemoryState.UNKNOWN ∧
      ∀ (A : Bool) (FromID : Int → Option RenderProcessHost) (s : MemoryState),
        (SetChildMemoryState A FromID coordinatorWithVisible7 8 s).ret = false ∧
        (SetChildMemoryState A FromID coordinatorWithVisible7 8 s).coordinator.children_
          = coordinatorWithVisible7.children_ ∧
        (SetChildMemoryState A FromID coordinatorWithVisible7 8 s).sent = [] :=
  ⟨by decide, unregistered_id_unknown_and_rejected coordinatorWithVisible7 8 (by decide)⟩

/-- C5: after `CreateHandle(id)` the registry has an entry for `id` whose `memory_state` is
NORMAL, whose `is_visible` is true and whose handle has an unbound child endpoint (with the
connection-error handler for `id` installed), so `GetChildMemoryState(id)` is NORMAL; this
holds whatever the registry held before. -/
theorem CreateHandle_entry (mc : MemoryCoordinator) (id : Int) :
    (∃ child, (mc.CreateHandle id).children_.find id = some child ∧
        child.memory_state = MemoryState.NORMAL ∧ child.is_visible = true ∧
        child.handle.child_ = none ∧ child.handle.connection_error_handler = some id) ∧
      (mc.CreateHandle id).GetChildMemoryState id = MemoryState.NORMAL := by
  have hfind : (mc.CreateHandle id).children_.find id
      = some { memory_state := MemoryState.NORMAL, is_visible := true,
               handle := { render_process_id_ := id, child_ := none,
                           connection_error_handler := some id } } := by
    simp only [CreateHandle, CreateChildInfoMapEntry, MemoryCoordinatorHandleImpl.new,
      ChildInfoMap.find_insertOrAssign_self]
  refine ⟨⟨_, hfind, rfl, rfl, rfl, rfl⟩, ?_⟩
  simp only [GetChildMemoryState, hfind]

/-- C6: for an id whose entry exists but whose child endpoint is not bound,
`SetChildMemoryState` returns false for every requested state, the registry (hence the
stored state) is unchanged and nothing is sent. -/
theorem SetChildMemoryState_unbound_rejected (mc : MemoryCoordinator) (id : Int)
    (child : ChildInfo) (hf : mc.children_.find id = some child)
    (hb : child.handle.child_ = none) :
    ∀ (A : Bool) (FromID : Int → Option RenderProcessHost) (s : MemoryState),
      (SetChildMemoryState A FromID mc id s).ret = false ∧
      (SetChildMemoryState A FromID mc id s).coordinator.children_ = mc.children_ ∧
      (SetChildMemoryState A FromID mc id s).coordinator.GetChildMemoryState id
        = child.memory_state ∧
      (SetChildMemoryState A FromID mc id s).sent = [] := by
  intro A FromID s
  rw [SetChildMemoryState_of_unbound A FromID mc id s child hf hb]
  exact ⟨rfl, rfl, GetChildMemoryState_of_find mc id child hf, rfl⟩

/-- An instance of C6: process 7 right after `CreateHandle(7)` on the empty registry, with
THROTTLED requested. -/
theorem SetChildMemoryState_unbound_rejected_witness :
    ((empty none).CreateHandle 7).children_.find 7
        = some { memory_state := MemoryState.NORMAL, is_visible := true,
                 handle := { render_process_id_ := 7, child_ := none,
                             connection_error_handler := some 7 } } ∧
      (SetChildMemoryState false noHosts ((empty none).CreateHandle 7) 7
        MemoryState.THROTTLED).ret = false ∧
      (SetChildMemoryState false noHosts ((empty none).CreateHandle 7) 7
        MemoryState.THROTTLED).coordinator.children_ = ((empty none).CreateHandle 7).children_ ∧
      (SetChildMemoryState false noHosts ((empty none).CreateHandle 7) 7
        MemoryState.THROTTLED).coordinator.GetChildMemoryState 7 = MemoryState.NORMAL ∧
      (SetChildMemoryState false noHosts ((empty none).CreateHandle 7) 7
        MemoryState.THROTTLED).sent = [] :=
  ⟨by decide,
    SetChildMemoryState_unbound_rejected ((empty none).CreateHandle 7) 7
      { memory_state := MemoryState.NORMAL, is_visible := true,
        handle := { render_process_id_ := 7, child_ := none,
                    connection_error_handler := some 7 } }
      (by decide) (by decide) false noHosts MemoryState.THROTTLED⟩

/-- C7: for a bound entry with `is_visible` true, whatever its stored state and whatever
`CanSuspendRenderer` would answer (any delegate, any process directory) and on both
platform variants, `SetChildMemoryState(id, SUSPENDED)` returns true and the state stored
afterwards is THROTTLED, hence not SUSPENDED. -/
theorem SetChildMemoryState_suspend_visible (mc : MemoryCoordinator) (id : Int)
    (child : ChildInfo) (endpoint : Nat) (hf : mc.children_.find id = some child)
    (hb : child.handle.child_ = some endpoint) (hv : child.is_visible = true) :
    ∀ (A : Bool) (FromID : Int → Option RenderProcessHost),
      (SetChildMemoryState A FromID mc id MemoryState.SUSPENDED).ret = true ∧
      (SetChildMemoryState A FromID mc id
        MemoryState.SUSPENDED).coordinator.GetChildMemoryState id = MemoryState.THROTTLED ∧
      (SetChildMemoryState A FromID mc id
        MemoryState.SUSPENDED).coordinator.GetChildMemoryState id ≠ MemoryState.SUSPENDED := by
  intro A FromID
  have heff : OverrideGlobalState A MemoryState.SUSPENDED child = MemoryState.THROTTLED := by
    simp [OverrideGlobalState, hv]
  have hget : (SetChildMemoryState A FromID mc id MemoryState.SUSPENDED).ret = true ∧
      (SetChildMemoryState A FromID mc id
        MemoryState.SUSPENDED).coordinator.GetChildMemoryState id = MemoryState.THROTTLED := by
    rw [SetChildMemoryState_of_bound A FromID mc id MemoryState.SUSPENDED child endpoint
      (by decide) hf hb, heff]
    by_cases h1 : child.memory_state = MemoryState.THROTTLED
    · rw [if_pos h1]
      exact ⟨rfl, (GetChildMemoryState_of_find mc id child hf).trans h1⟩
    · rw [if_neg h1, if_neg (by simp)]
      refine ⟨rfl, ?_⟩
      simp only [GetChildMemoryState, ChildInfoMap.find_modify_self, hf, Option.map_some']
  refine ⟨hget.1, hget.2, ?_⟩
  rw [hget.2]
  decide

/-- An instance of C7: process 7 is bound, visible and NORMAL, the delegate is present and
the process directory knows no process, so `CanSuspendRenderer(7)` is false. -/
theorem SetChildMemoryState_suspend_visible_witness :
    CanSuspendRenderer noHosts coordinatorWithVisible7 7 = false ∧
      (SetChildMemoryState false noHosts coordinatorWithVisible7 7 MemoryState.SUSPENDED).ret
        = true ∧
      (SetChildMemoryState false noHosts coordinatorWithVisible7 7
        MemoryState.SUSPENDED).coordinator.GetChildMemoryState 7 = MemoryState.THROTTLED ∧
      (SetChildMemoryState false noHosts coordinatorWithVisible7 7
        MemoryState.SUSPENDED).coordinator.GetChildMemoryState 7 ≠ MemoryState.SUSPENDED :=
  ⟨by decide,
    SetChildMemoryState_suspend_visible coordinatorWithVisible7 7 visibleChild7 1
      (by decide) (by decide) (by decide) false noHosts⟩

/-- C8: if `SetChildMemoryState(id, s)` returns true, then calling it again with the same
`s` on the resulting coordinator returns true, leaves the coordinator (and its registry)
unchanged and sends no notification, whatever the process directory answers by then. -/
theorem SetChildMemoryState_repeat (A : Bool) (FromID FromID2 : Int → Option RenderProcessHost)
    (mc : MemoryCoordinator) (id : Int) (s : MemoryState)
    (hr : (SetChildMemoryState A FromID mc id s).ret = true) :
    (SetChildMemoryState A FromID2 (SetChildMemoryState A FromID mc id s).coordinator id s).ret
        = true ∧
      (SetChildMemoryState A FromID2 (SetChildMemoryState A FromID mc id s).coordinator id
        s).coordinator = (SetChildMemoryState A FromID mc id s).coordinator ∧
      (SetChildMemoryState A FromID2 (SetChildMemoryState A FromID mc id s).coordinator id
        s).sent = [] := by
  by_cases hs : s = MemoryState.UNKNOWN
  · subst hs
    rw [SetChildMemoryState_of_unknown] at hr
    exact absurd hr (by simp)
  · cases hf : mc.children_.find id with
    | none =>
      rw [SetChildMemoryState_of_absent A FromID mc id s hf] at hr
      exact absurd hr (by simp)
    | some child =>
      cases hb : child.handle.child_ with
      | none =>
        rw [SetChildMemoryState_of_unbound A FromID mc id s child hf hb] at hr
        exact absurd hr (by simp)
      | some endpoint =>
        have hnop : ∀ (mc2 : MemoryCoordinator) (c2 : ChildInfo),
            mc2.children_.find id = some c2 → c2.handle.child_ = some endpoint →
            c2.memory_state = OverrideGlobalState A s c2 →
            (SetChildMemoryState A FromID2 mc2 id s).ret = true ∧
              (SetChildMemoryState A FromID2 mc2 id s).coordinator = mc2 ∧
              (SetChildMemoryState A FromID2 mc2 id s).sent = [] := by
          intro mc2 c2 h1 h2 h3
          rw [SetChildMemoryState_of_bound A FromID2 mc2 id s c2 endpoint hs h1 h2, if_pos h3]
          exact ⟨rfl, rfl, rfl⟩
        rw [SetChildMemoryState_of_bound A FromID mc id s child endpoint hs hf hb] at hr ⊢
        by_cases h1 : child.memory_state = OverrideGlobalState A s child
        · rw [if_pos h1]
          exact hnop mc child hf hb h1
        · by_cases h2 : OverrideGlobalState A s child = MemoryState.SUSPENDED ∧
              CanSuspendRenderer FromID mc id = false
          · rw [if_neg h1, if_pos h2] at hr
            exact absurd hr (by simp)
          · rw [if_neg h1, if_neg h2]
            refine hnop _ { child with memory_state := OverrideGlobalState A s child } ?_ hb ?_
            · simp only [ChildInfoMap.find_modify_self, hf, Option.map_some']
            · rfl

/-- An instance of C8: process 7 is bound, visible and NORMAL, THROTTLED is requested
twice. -/
theorem SetChildMemoryState_repeat_witness :
    (SetChildMemoryState false noHosts coordinatorWithVisible7 7 MemoryState.THROTTLED).ret
        = true ∧
      (SetChildMemoryState false allBackgrounded (SetChildMemoryState false noHosts
        coordinatorWithVisible7 7 MemoryState.THROTTLED).coordinator 7
        MemoryState.THROTTLED).ret = true ∧
      (SetChildMemoryState false allBackgrounded (SetChildMemoryState false noHosts
        coordinatorWithVisible7 7 MemoryState.THROTTLED).coordinator 7
        MemoryState.THROTTLED).coordinator = (SetChildMemoryState false noHosts
        coordinatorWithVisible7 7 MemoryState.THROTTLED).coordinator ∧
      (SetChildMemoryState false allBackgrounded (SetChildMemoryState false noHosts
        coordinatorWithVisible7 7 MemoryState.THROTTLED).coordinator 7
        MemoryState.THROTTLED).sent = [] :=
  ⟨by decide, SetChildMemoryState_repeat false noHosts allBackgrounded coordinatorWithVisible7 7
    MemoryState.THROTTLED (by decide)⟩

theorem ChildInfoMap.find_modify_eq_none (m : ChildInfoMap) (id k : Int)
    (f : ChildInfo → ChildInfo) (h : ChildInfoMap.find m k = none) :
    ChildInfoMap.find (ChildInfoMap.modify m id f) k = none := by
  by_cases hk : k = id
  · subst hk
    rw [ChildInfoMap.find_modify_self, h]
    rfl
  · rw [ChildInfoMap.find_modify_ne m id k f hk, h]

theorem SetChildMemoryState_children (A : Bool) (FromID : Int → Option RenderProcessHost)
    (mc : MemoryCoordinator) (id : Int) (s : MemoryState) :
    (SetChildMemoryState A FromID mc id s).coordinator.children_ = mc.children_ ∨
      ∃ st, (SetChildMemoryState A FromID mc id s).coordinator.children_
        = mc.children_.modify id (fun c => { c with memory_state := st }) := by
  by_cases hs : s = MemoryState.UNKNOWN
  · subst hs
    rw [SetChildMemoryState_of_unknown]
    exact Or.inl rfl
  · cases hf : mc.children_.find id with
    | none =>
      rw [SetChildMemoryState_of_absent A FromID mc id s hf]
      exact Or.inl rfl
    | some child =>
      cases hb : child.handle.child_ with
      | none =>
        rw [SetChildMemoryState_of_unbound A FromID mc id s child hf hb]
        exact Or.inl rfl
      | some endpoint =>
        rw [SetChildMemoryState_of_bound A FromID mc id s child endpoint hs hf hb]
        split
        · exact Or.inl rfl
        · split
          · exact Or.inl rfl
          · exact Or.inr ⟨_, rfl⟩

theorem Op.apply_find_none (A : Bool) (mc : MemoryCoordinator) (id : Int) (op : Op)
    (hop : op.registers id = false) (h : mc.children_.find id = none) :
    (Op.apply A mc op).children_.find id = none := by
  cases op with
  | CreateHandle k =>
    have hk : id ≠ k := fun h2 => by simp [Op.registers, h2] at hop
    simp only [Op.apply, CreateHandle, CreateChildInfoMapEntry]
    rw [ChildInfoMap.find_insertOrAssign_ne _ _ _ _ hk, h]
  | AddChild k child =>
    simp only [Op.apply, AddChild, OnChildAdded]
    exact ChildInfoMap.find_modify_eq_none _ _ _ _ h
  | AddChildForTesting k child =>
    have hk : id ≠ k := fun h2 => by simp [Op.registers, h2] at hop
    simp only [Op.apply, AddChildForTesting, OnChildAdded, CreateChildInfoMapEntry]
    rw [ChildInfoMap.find_insertOrAssign_ne _ _ _ _ hk, h]
  | SetChildMemoryState FromID k s =>
    simp only [Op.apply]
    rcases SetChildMemoryState_children A FromID mc k s with h2 | ⟨st, h2⟩
    · rw [h2, h]
    · rw [h2]
      exact ChildInfoMap.find_modify_eq_none _ _ _ _ h
  | OnConnectionError k =>
    simp only [Op.apply, OnConnectionError]
    by_cases hk : id = k
    · subst hk
      exact ChildInfoMap.find_erase_self _ _
    · rw [ChildInfoMap.find_erase_ne _ _ _ hk, h]

theorem run_find_none (A : Bool) (id : Int) (ops : List Op)
    (hops : ∀ op ∈ ops, op.registers id = false) :
    ∀ mc : MemoryCoordinator, mc.children_.find id = none →
      (mc.run A ops).children_.find id = none := by
  induction ops with
  | nil => exact fun mc h => h
  | cons op rest ih =>
    intro mc h
    have h1 := Op.apply_find_none A mc id op (hops op (List.mem_cons_self _ _)) h
    exact ih (fun o ho => hops o (List.mem_cons_of_mem _ ho)) _ h1

/-- C9: after `OnConnectionError(id)`, and after any further sequence of coordinator
operations none of which registers `id` again (no `CreateHandle(id)`, no
`AddChildForTesting(id)`), `GetChildMemoryState(id)` returns UNKNOWN and
`SetChildMemoryState(id, s)` returns false for every state `s`. -/
theorem OnConnectionError_forgets (A : Bool) (mc : MemoryCoordinator) (id : Int)
    (ops : List Op) (hops : ∀ op ∈ ops, op.registers id = false) :
    ((mc.OnConnectionError id).run A ops).GetChildMemoryState id = MemoryState.UNKNOWN ∧
      ∀ (FromID : Int → Option RenderProcessHost) (s : MemoryState),
        (SetChildMemoryState A FromID ((mc.OnConnectionError id).run A ops) id s).ret
          = false := by
  have h0 : (mc.OnConnectionError id).children_.find id = none :=
    ChildInfoMap.find_erase_self _ _
  have h1 := run_find_none A id ops hops _ h0
  refine ⟨GetChildMemoryState_of_absent _ id h1, fun FromID s => ?_⟩
  rw [SetChildMemoryState_of_absent A FromID _ id s h1]

/-- An instance of C9: process 7 is disconnected, then process 8 registers and binds, a
late `AddChild` for 7 arrives and a state is requested for both. -/
theorem OnConnectionError_forgets_witness :
    ((coordinatorWithVisible7.OnConnectionError 7).run false
        [Op.CreateHandle 8, Op.AddChild 8 (some 2), Op.AddChild 7 (some 3),
          Op.SetChildMemoryState noHosts 8 MemoryState.THROTTLED,
          Op.SetChildMemoryState noHosts 7 MemoryState.THROTTLED]).GetChildMemoryState 7
        = MemoryState.UNKNOWN ∧
      ∀ (FromID : Int → Option RenderProcessHost) (s : MemoryState),
        (SetChildMemoryState false FromID ((coordinatorWithVisible7.OnConnectionError 7).run false
          [Op.CreateHandle 8, Op.AddChild 8 (some 2), Op.AddChild 7 (some 3),
            Op.SetChildMemoryState noHosts 8 MemoryState.THROTTLED,
            Op.SetChildMemoryState noHosts 7 MemoryState.THROTTLED]) 7 s).ret = false :=
  OnConnectionError_forgets false coordinatorWithVisible7 7
    [Op.CreateHandle 8, Op.AddChild 8 (some 2), Op.AddChild 7 (some 3),
      Op.SetChildMemoryState noHosts 8 MemoryState.THROTTLED,
      Op.SetChildMemoryState noHosts 7 MemoryState.THROTTLED]
    (by
      intro op hop
      simp only [List.mem_cons, List.mem_singleton, List.not_mem_nil, or_false] at hop
      rcases hop with h | h | h | h | h <;> subst h <;> rfl)

theorem SetChildMemoryState_suspend_hidden_aux (A : Bool)
    (FromID : Int → Option RenderProcessHost) (mc : MemoryCoordinator) (id : Int)
    (child : ChildInfo) (endpoint : Nat) (hf : mc.children_.find id = some child)
    (hb : child.handle.child_ = some endpoint) (hv : child.is_visible = false)
    (hst : child.memory_state ≠ MemoryState.SUSPENDED)
    (hcan : CanSuspendRenderer FromID mc id = true) :
    (SetChildMemoryState A FromID mc id MemoryState.SUSPENDED).ret = true ∧
      (SetChildMemoryState A FromID mc id
        MemoryState.SUSPENDED).coordinator.GetChildMemoryState id = MemoryState.SUSPENDED ∧
      (SetChildMemoryState A FromID mc id MemoryState.SUSPENDED).sent
        = [{ child := endpoint, state := MemoryState.SUSPENDED }] := by
  have heff : OverrideGlobalState A MemoryState.SUSPENDED child = MemoryState.SUSPENDED := by
    simp [OverrideGlobalState, hv]
  rw [SetChildMemoryState_of_bound A FromID mc id MemoryState.SUSPENDED child endpoint
    (by decide) hf hb, heff, if_neg hst, if_neg (by simp [hcan])]
  refine ⟨rfl, ?_, rfl⟩
  simp only [GetChildMemoryState, ChildInfoMap.find_modify_self, hf, Option.map_some']

theorem scenarioBound_children (delegate : Option MemoryCoordinatorDelegate) (endpoint : Nat) :
    (scenarioBound delegate endpoint).children_
      = [(7, { memory_state := MemoryState.NORMAL, is_visible := true,
               handle := { render_process_id_ := 7, child_ := some endpoint,
                           connection_error_handler := some 7 } })] := by
  rfl

theorem scenarioFirstRequest_eq (A : Bool) (FromID : Int → Option RenderProcessHost)
    (delegate : Option MemoryCoordinatorDelegate) (endpoint : Nat) :
    (scenarioFirstRequest A FromID delegate endpoint).ret = true ∧
      (scenarioFirstRequest A FromID delegate endpoint).coordinator.children_
        = [(7, { memory_state := MemoryState.THROTTLED, is_visible := true,
                 handle := { render_process_id_ := 7, child_ := some endpoint,
                             connection_error_handler := some 7 } })] ∧
      (scenarioFirstRequest A FromID delegate endpoint).sent
        = [{ child := endpoint, state := MemoryState.THROTTLED }] := by
  exact ⟨rfl, rfl, rfl⟩

theorem scenarioHidden_children (A : Bool) (FromID : Int → Option RenderProcessHost)
    (delegate : Option MemoryCoordinatorDelegate) (endpoint : Nat) :
    (scenarioHidden A FromID delegate endpoint).children_
      = [(7, { memory_state := MemoryState.THROTTLED, is_visible := false,
               handle := { render_process_id_ := 7, child_ := some endpoint,
                           connection_error_handler := some 7 } })] := by
  rfl

/-- C10: the scenario for process id 7 on an empty registry, and the general rule behind
its last step. `CreateHandle(7)` gives state NORMAL; once the child has bound its endpoint
the entry is bound, NORMAL and visible; `SetChildMemoryState(7, SUSPENDED)` then returns
true and stores THROTTLED; after `is_visible` is set to false, and provided the renderer is
suspendable at that moment (`CanSuspendRenderer(7)` is true), `SetChildMemoryState(7,
SUSPENDED)` returns true and stores SUSPENDED. In general, for every bound, non-visible
entry whose stored state is not SUSPENDED and for which `CanSuspendRenderer` is true,
`SetChildMemoryState(id, SUSPENDED)` returns true and stores SUSPENDED. -/
theorem suspend_scenario (A : Bool) (FromID FromID2 : Int → Option RenderProcessHost)
    (delegate : Option MemoryCoordinatorDelegate) (endpoint : Nat)
    (hcan : CanSuspendRenderer FromID2 (scenarioHidden A FromID delegate endpoint) 7 = true) :
    ((scenarioRegistered delegate).GetChildMemoryState 7 = MemoryState.NORMAL ∧
      (scenarioBound delegate endpoint).children_.find 7
        = some { memory_state := MemoryState.NORMAL, is_visible := true,
                 handle := { render_process_id_ := 7, child_ := some endpoint,
                             connection_error_handler := some 7 } } ∧
      (scenarioFirstRequest A FromID delegate endpoint).ret = true ∧
      (scenarioFirstRequest A FromID delegate endpoint).coordinator.GetChildMemoryState 7
        = MemoryState.THROTTLED ∧
      (scenarioSecondRequest A FromID FromID2 delegate endpoint).ret = true ∧
      (scenarioSecondRequest A FromID FromID2 delegate endpoint).coordinator.GetChildMemoryState 7
        = MemoryState.SUSPENDED) ∧
    (∀ (B : Bool) (F : Int → Option RenderProcessHost) (mc : MemoryCoordinator) (id : Int)
        (child : ChildInfo) (e : Nat),
      mc.children_.find id = some child → child.handle.child_ = some e →
      child.is_visible = false → child.memory_state ≠ MemoryState.SUSPENDED →
      CanSuspendRenderer F mc id = true →
        (SetChildMemoryState B F mc id MemoryState.SUSPENDED).ret = true ∧
        (SetChildMemoryState B F mc id MemoryState.SUSPENDED).coordinator.GetChildMemoryState id
          = MemoryState.SUSPENDED) := by
  refine ⟨⟨rfl, rfl, rfl, rfl, ?_⟩, ?_⟩
  · have h := SetChildMemoryState_suspend_hidden_aux A FromID2
      (scenarioHidden A FromID delegate endpoint) 7
      { memory_state := MemoryState.THROTTLED, is_visible := false,
        handle := { render_process_id_ := 7, child_ := some endpoint,
                    connection_error_handler := some 7 } }
      endpoint (by rw [scenarioHidden_children]; rfl) rfl rfl (by simp) hcan
    exact ⟨h.1, h.2.1⟩
  · intro B F mc id child e hf hb hv hst hc
    have h := SetChildMemoryState_suspend_hidden_aux B F mc id child e hf hb hv hst hc
    exact ⟨h.1, h.2.1⟩

/-- An instance of C10: a delegate that allows suspension, every process backgrounded,
endpoint 1, on the default platform; the general rule is instantiated at a registry that
holds a hidden, THROTTLED entry for process 7. -/
theorem suspend_scenario_witness :
    CanSuspendRenderer allBackgrounded
        (scenarioHidden false noHosts (some permissiveDelegate) 1) 7 = true ∧
      (scenarioFirstRequest false noHosts (some permissiveDelegate) 1).ret = true ∧
      (scenarioFirstRequest false noHosts (some permissiveDelegate)
        1).coordinator.GetChildMemoryState 7 = MemoryState.THROTTLED ∧
      (scenarioSecondRequest false noHosts allBackgrounded (some permissiveDelegate) 1).ret
        = true ∧
      (scenarioSecondRequest false noHosts allBackgrounded (some permissiveDelegate)
        1).coordinator.GetChildMemoryState 7 = MemoryState.SUSPENDED ∧
      (SetChildMemoryState false allBackgrounded coordinatorWithHidden7 7
        MemoryState.SUSPENDED).ret = true ∧
      (SetChildMemoryState false allBackgrounded coordinatorWithHidden7 7
        MemoryState.SUSPENDED).coordinator.GetChildMemoryState 7 = MemoryState.SUSPENDED :=
  ⟨by decide,
    (suspend_scenario false noHosts allBackgrounded (some permissiveDelegate) 1
      (by decide)).1.2.2.1,
    (suspend_scenario false noHosts allBackgrounded (some permissiveDelegate) 1
      (by decide)).1.2.2.2.1,
    (suspend_scenario false noHosts allBackgrounded (some permissiveDelegate) 1
      (by decide)).1.2.2.2.2.1,
    (suspend_scenario false noHosts allBackgrounded (some permissiveDelegate) 1
      (by decide)).1.2.2.2.2.2,
    (suspend_scenario false noHosts allBackgrounded (some permissiveDelegate) 1
      (by decide)).2 false allBackgrounded coordinatorWithHidden7 7 hiddenChild7 1
      (by decide) (by decide) (by decide) (by decide) (by decide)⟩

end MemoryCoordinator

/-! ## Membership facts about the registry operations -/

theorem ChildInfoMap.find_mem (m : ChildInfoMap) (id : Int) (c : ChildInfo)
    (h : ChildInfoMap.find m id = some c) : (id, c) ∈ m := by
  induction m with
  | nil => exact absurd h (by simp [ChildInfoMap.find])
  | cons e rest ih =>
    obtain ⟨k, v⟩ := e
    by_cases hk : k = id
    · subst hk
      rw [ChildInfoMap.find_cons_self] at h
      rw [Option.some.inj h]
      exact List.mem_cons_self _ _
    · rw [ChildInfoMap.find_cons_ne _ _ _ _ hk] at h
      exact List.mem_cons_of_mem _ (ih h)

theorem ChildInfoMap.find_eq_none_iff (m : ChildInfoMap) (id : Int) :
    ChildInfoMap.find m id = none ↔ ∀ e ∈ m, e.1 ≠ id := by
  induction m with
  | nil => simp [ChildInfoMap.find]
  | cons e rest ih =>
    obtain ⟨k, v⟩ := e
    by_cases hk : k = id
    · subst hk
      rw [ChildInfoMap.find_cons_self]
      simp
    · rw [ChildInfoMap.find_cons_ne _ _ _ _ hk, ih]
      simp [hk]

theorem ChildInfoMap.mem_insertOrAssign (m : ChildInfoMap) (id : Int) (v : ChildInfo)
    (e : Int × ChildInfo) (h : e ∈ ChildInfoMap.insertOrAssign m id v) :
    e = (id, v) ∨ e ∈ m := by
  induction m with
  | nil =>
    simp only [ChildInfoMap.insertOrAssign, List.mem_singleton] at h
    exact Or.inl h
  | cons x rest ih =>
    obtain ⟨k, w⟩ := x
    by_cases h1 : id < k
    · simp only [ChildInfoMap.insertOrAssign, if_pos h1, List.mem_cons] at h
      rcases h with h | h | h
      · exact Or.inl h
      · exact Or.inr (by rw [h]; exact List.mem_cons_self _ _)
      · exact Or.inr (List.mem_cons_of_mem _ h)
    · by_cases hk : k = id
      · simp only [ChildInfoMap.insertOrAssign, if_neg h1, if_pos hk, List.mem_cons] at h
        rcases h with h | h
        · exact Or.inl h
        · exact Or.inr (List.mem_cons_of_mem _ h)
      · simp only [ChildInfoMap.insertOrAssign, if_neg h1, if_neg hk, List.mem_cons] at h
        rcases h with h | h
        · exact Or.inr (by rw [h]; exact List.mem_cons_self _ _)
        · rcases ih h with h2 | h2
          · exact Or.inl h2
          · exact Or.inr (List.mem_cons_of_mem _ h2)

theorem ChildInfoMap.mem_modify (m : ChildInfoMap) (id : Int) (f : ChildInfo → ChildInfo)
    (e : Int × ChildInfo) (h : e ∈ ChildInfoMap.modify m id f) :
    e ∈ m ∨ ∃ v, ChildInfoMap.find m id = some v ∧ e = (id, f v) := by
  induction m with
  | nil => exact absurd h (by simp [ChildInfoMap.modify])
  | cons x rest ih =>
    obtain ⟨k, w⟩ := x
    by_cases hk : k = id
    · subst hk
      simp only [ChildInfoMap.modify, if_true, List.mem_cons] at h
      rcases h with h | h
      · exact Or.inr ⟨w, ChildInfoMap.find_cons_self _ _ _, h⟩
      · exact Or.inl (List.mem_cons_of_mem _ h)
    · simp only [ChildInfoMap.modify, if_neg hk, List.mem_cons] at h
      rcases h with h | h
      · exact Or.inl (by rw [h]; exact List.mem_cons_self _ _)
      · rcases ih h with h2 | ⟨v, h2, h3⟩
        · exact Or.inl (List.mem_cons_of_mem _ h2)
        · exact Or.inr ⟨v, by rw [ChildInfoMap.find_cons_ne _ _ _ _ hk]; exact h2, h3⟩

theorem ChildInfoMap.mem_erase (m : ChildInfoMap) (id : Int) (e : Int × ChildInfo)
    (h : e ∈ ChildInfoMap.erase m id) : e ∈ m := by
  induction m with
  | nil => exact absurd h (by simp [ChildInfoMap.erase])
  | cons x rest ih =>
    obtain ⟨k, w⟩ := x
    by_cases hk : k = id
    · simp only [ChildInfoMap.erase, if_pos hk] at h
      exact List.mem_cons_of_mem _ (ih h)
    · simp only [ChildInfoMap.erase, if_neg hk, List.mem_cons] at h
      rcases h with h | h
      · rw [h]
        exact List.mem_cons_self _ _
      · exact List.mem_cons_of_mem _ (ih h)

theorem ChildInfoMap.erase_of_find_none (m : ChildInfoMap) (id : Int)
    (h : ChildInfoMap.find m id = none) : ChildInfoMap.erase m id = m := by
  induction m with
  | nil => rfl
  | cons x rest ih =>
    obtain ⟨k, w⟩ := x
    by_cases hk : k = id
    · subst hk
      rw [ChildInfoMap.find_cons_self] at h
      exact absurd h (by simp)
    · rw [ChildInfoMap.find_cons_ne _ _ _ _ hk] at h
      simp only [ChildInfoMap.erase, if_neg hk, ih h]

namespace MemoryCoordinator

theorem OverrideGlobalState_ne_unknown (A : Bool) (s : MemoryState) (child : ChildInfo)
    (hs : s ≠ MemoryState.UNKNOWN) : OverrideGlobalState A s child ≠ MemoryState.UNKNOWN := by
  unfold OverrideGlobalState
  split
  · decide
  · split
    · decide
    · exact hs

theorem OverrideGlobalState_visible_ne_suspended (A : Bool) (s : MemoryState)
    (child : ChildInfo) (hv : child.is_visible = true) :
    OverrideGlobalState A s child ≠ MemoryState.SUSPENDED := by
  unfold OverrideGlobalState
  by_cases hs : s = MemoryState.SUSPENDED
  · rw [if_pos ⟨hv, hs⟩]
    decide
  · rw [if_neg (fun h => hs h.2)]
    split
    · decide
    · exact hs

theorem SetChildMemoryState_children_effective (A : Bool)
    (FromID : Int → Option RenderProcessHost) (mc : MemoryCoordinator) (id : Int)
    (s : MemoryState) :
    (SetChildMemoryState A FromID mc id s).coordinator = mc ∨
      ∃ child, mc.children_.find id = some child ∧ s ≠ MemoryState.UNKNOWN ∧
        (SetChildMemoryState A FromID mc id s).coordinator.children_
          = mc.children_.modify id
              (fun c => { c with memory_state := OverrideGlobalState A s child }) := by
  by_cases hs : s = MemoryState.UNKNOWN
  · subst hs
    rw [SetChildMemoryState_of_unknown]
    exact Or.inl rfl
  · cases hf : mc.children_.find id with
    | none =>
      rw [SetChildMemoryState_of_absent A FromID mc id s hf]
      exact Or.inl rfl
    | some child =>
      cases hb : child.handle.child_ with
      | none =>
        rw [SetChildMemoryState_of_unbound A FromID mc id s child hf hb]
        exact Or.inl rfl
      | some endpoint =>
        rw [SetChildMemoryState_of_bound A FromID mc id s child endpoint hs hf hb]
        split
        · exact Or.inl rfl
        · split
          · exact Or.inl rfl
          · exact Or.inr ⟨child, rfl, hs, rfl⟩

theorem SetChildMemoryState_delegate (A : Bool) (FromID : Int → Option RenderProcessHost)
    (mc : MemoryCoordinator) (id : Int) (s : MemoryState) :
    (SetChildMemoryState A FromID mc id s).coordinator.delegate_ = mc.delegate_ := by
  rcases SetChildMemoryState_children_effective A FromID mc id s with h | ⟨child, hf, hs, _⟩
  · rw [h]
  · cases hb : child.handle.child_ with
    | none => rw [SetChildMemoryState_of_unbound A FromID mc id s child hf hb]
    | some endpoint =>
      rw [SetChildMemoryState_of_bound A FromID mc id s child endpoint hs hf hb]
      split
      · rfl
      · split <;> rfl

/-- C11: for a bound entry whose effective state after override is SUSPENDED while its
stored state is not SUSPENDED, if `CanSuspendRenderer(id)` is false then
`SetChildMemoryState` returns false, the coordinator (hence the stored state) is unchanged
and no notification is sent. -/
theorem SetChildMemoryState_suspend_refused (A : Bool)
    (FromID : Int → Option RenderProcessHost) (mc : MemoryCoordinator) (id : Int)
    (s : MemoryState) (child : ChildInfo) (endpoint : Nat)
    (hf : mc.children_.find id = some child) (hb : child.handle.child_ = some endpoint)
    (heff : OverrideGlobalState A s child = MemoryState.SUSPENDED)
    (hst : child.memory_state ≠ MemoryState.SUSPENDED)
    (hcan : CanSuspendRenderer FromID mc id = false) :
    (SetChildMemoryState A FromID mc id s).ret = false ∧
      (SetChildMemoryState A FromID mc id s).coordinator = mc ∧
      (SetChildMemoryState A FromID mc id s).coordinator.GetChildMemoryState id
        = child.memory_state ∧
      (SetChildMemoryState A FromID mc id s).sent = [] := by
  have hs : s ≠ MemoryState.UNKNOWN := by
    intro h
    subst h
    have h2 : OverrideGlobalState A MemoryState.UNKNOWN child = MemoryState.UNKNOWN := by
      simp [OverrideGlobalState]
    rw [h2] at heff
    exact absurd heff (by decide)
  rw [SetChildMemoryState_of_bound A FromID mc id s child endpoint hs hf hb, heff,
    if_neg hst, if_pos ⟨rfl, hcan⟩]
  exact ⟨rfl, rfl, GetChildMemoryState_of_find mc id child hf, rfl⟩

/-- An instance of C11: process 7 is bound, hidden and THROTTLED, a delegate is present
and the process directory knows no process, so the renderer cannot be suspended. -/
theorem SetChildMemoryState_suspend_refused_witness :
    CanSuspendRenderer noHosts coordinatorWithHidden7 7 = false ∧
      (SetChildMemoryState false noHosts coordinatorWithHidden7 7 MemoryState.SUSPENDED).ret
        = false ∧
      (SetChildMemoryState false noHosts coordinatorWithHidden7 7
        MemoryState.SUSPENDED).coordinator = coordinatorWithHidden7 ∧
      (SetChildMemoryState false noHosts coordinatorWithHidden7 7
        MemoryState.SUSPENDED).coordinator.GetChildMemoryState 7 = hiddenChild7.memory_state ∧
      (SetChildMemoryState false noHosts coordinatorWithHidden7 7
        MemoryState.SUSPENDED).sent = [] :=
  ⟨by decide,
    SetChildMemoryState_suspend_refused false noHosts coordinatorWithHidden7 7
      MemoryState.SUSPENDED hiddenChild7 1 (by decide) (by decide) (by decide) (by decide)
      (by decide)⟩

/-- C12: on the default platform (`OS_ANDROID` not defined) `OverrideGlobalState` returns
THROTTLED when the request is SUSPENDED and the child is visible, and the requested state
unchanged in every other case. -/
theorem OverrideGlobalState_default (s : MemoryState) (child : ChildInfo) :
    OverrideGlobalState false s child =
      if s = MemoryState.SUSPENDED ∧ child.is_visible = true then MemoryState.THROTTLED
      else s := by
  unfold OverrideGlobalState
  by_cases h : child.is_visible = true ∧ s = MemoryState.SUSPENDED
  · rw [if_pos h, if_pos ⟨h.2, h.1⟩]
  · have h3 : ¬ (false = true ∧ child.is_visible = false ∧ s = MemoryState.NORMAL) := by
      simp
    have h4 : ¬ (s = MemoryState.SUSPENDED ∧ child.is_visible = true) :=
      fun h2 => h ⟨h2.2, h2.1⟩
    simp only [if_neg h, if_neg h3, if_neg h4]

/-- C13: on the Android variant `OverrideGlobalState` maps a requested NORMAL for a
non-visible child to THROTTLED. Hence, for an entry that is not visible:
`SetChildMemoryState(id, NORMAL)` on a bound entry returns true and the stored state
afterwards is THROTTLED; and no call of `SetChildMemoryState` stores NORMAL: every
notification it sends carries a state other than NORMAL, and if the stored state is NORMAL
after the call, then the call wrote nothing (the coordinator is unchanged). -/
theorem android_hidden_never_normal (FromID : Int → Option RenderProcessHost)
    (mc : MemoryCoordinator) (id : Int) (child : ChildInfo)
    (hf : mc.children_.find id = some child) (hv : child.is_visible = false) :
    OverrideGlobalState true MemoryState.NORMAL child = MemoryState.THROTTLED ∧
      (∀ endpoint, child.handle.child_ = some endpoint →
        (SetChildMemoryState true FromID mc id MemoryState.NORMAL).ret = true ∧
        (SetChildMemoryState true FromID mc id
          MemoryState.NORMAL).coordinator.GetChildMemoryState id = MemoryState.THROTTLED) ∧
      (∀ s, (∀ msg ∈ (SetChildMemoryState true FromID mc id s).sent,
          msg.state ≠ MemoryState.NORMAL) ∧
        ((SetChildMemoryState true FromID mc id s).coordinator.GetChildMemoryState id
            = MemoryState.NORMAL →
          (SetChildMemoryState true FromID mc id s).coordinator = mc)) := by
  have hN : OverrideGlobalState true MemoryState.NORMAL child = MemoryState.THROTTLED := by
    simp [OverrideGlobalState, hv]
  have hne : ∀ s, OverrideGlobalState true s child ≠ MemoryState.NORMAL := by
    intro s
    cases s <;> simp [OverrideGlobalState, hv]
  refine ⟨hN, ?_, ?_⟩
  · intro endpoint hb
    rw [SetChildMemoryState_of_bound true FromID mc id MemoryState.NORMAL child endpoint
      (by decide) hf hb, hN]
    by_cases h1 : child.memory_state = MemoryState.THROTTLED
    · rw [if_pos h1]
      exact ⟨rfl, (GetChildMemoryState_of_find mc id child hf).trans h1⟩
    · rw [if_neg h1, if_neg (by simp)]
      refine ⟨rfl, ?_⟩
      simp only [GetChildMemoryState, ChildInfoMap.find_modify_self, hf, Option.map_some']
  · intro s
    by_cases hs : s = MemoryState.UNKNOWN
    · subst hs
      rw [SetChildMemoryState_of_unknown]
      exact ⟨fun msg h => absurd h (List.not_mem_nil _), fun _ => rfl⟩
    · cases hb : child.handle.child_ with
      | none =>
        rw [SetChildMemoryState_of_unbound true FromID mc id s child hf hb]
        exact ⟨fun msg h => absurd h (List.not_mem_nil _), fun _ => rfl⟩
      | some endpoint =>
        rw [SetChildMemoryState_of_bound true FromID mc id s child endpoint hs hf hb]
        by_cases h1 : child.memory_state = OverrideGlobalState true s child
        · rw [if_pos h1]
          exact ⟨fun msg h => absurd h (List.not_mem_nil _), fun _ => rfl⟩
        · by_cases h2 : OverrideGlobalState true s child = MemoryState.SUSPENDED ∧
              CanSuspendRenderer FromID mc id = false
          · rw [if_neg h1, if_pos h2]
            exact ⟨fun msg h => absurd h (List.not_mem_nil _), fun _ => rfl⟩
          · rw [if_neg h1, if_neg h2]
            refine ⟨fun msg h => ?_, fun h => ?_⟩
            · rw [List.mem_singleton] at h
              rw [h]
              exact hne s
            · simp only [GetChildMemoryState, ChildInfoMap.find_modify_self, hf,
                Option.map_some'] at h
              exact absurd h (hne s)

/-- An instance of C13: process 7 is bound, hidden and THROTTLED; NORMAL is requested on
the Android variant. -/
theorem android_hidden_never_normal_witness :
    OverrideGlobalState true MemoryState.NORMAL hiddenChild7 = MemoryState.THROTTLED ∧
      (SetChildMemoryState true noHosts coordinatorWithHidden7 7 MemoryState.NORMAL).ret
        = true ∧
      (SetChildMemoryState true noHosts coordinatorWithHidden7 7
        MemoryState.NORMAL).coordinator.GetChildMemoryState 7 = MemoryState.THROTTLED :=
  ⟨(android_hidden_never_normal noHosts coordinatorWithHidden7 7 hiddenChild7
      (by decide) (by decide)).1,
    (android_hidden_never_normal noHosts coordinatorWithHidden7 7 hiddenChild7
      (by decide) (by decide)).2.1 1 (by decide)⟩

/-! ## Entry-wise invariants of the registry -/

theorem Op.apply_forall (P : ChildInfo → Prop) (A : Bool)
    (hnew : ∀ h, P { memory_state := MemoryState.NORMAL, is_visible := true, handle := h })
    (hhandle : ∀ c h, P c → P { c with handle := h })
    (hstate : ∀ c s, P c → s ≠ MemoryState.UNKNOWN →
      P { c with memory_state := OverrideGlobalState A s c })
    (mc : MemoryCoordinator) (op : Op) (h : ∀ e ∈ mc.children_, P e.2) :
    ∀ e ∈ (Op.apply A mc op).children_, P e.2 := by
  intro e he
  cases op with
  | CreateHandle k =>
    simp only [Op.apply, CreateHandle, CreateChildInfoMapEntry] at he
    rcases ChildInfoMap.mem_insertOrAssign _ _ _ _ he with h1 | h1
    · rw [h1]
      exact hnew _
    · exact h e h1
  | AddChild k child =>
    simp only [Op.apply, AddChild, OnChildAdded] at he
    rcases ChildInfoMap.mem_modify _ _ _ _ he with h1 | ⟨v, h1, h2⟩
    · exact h e h1
    · rw [h2]
      exact hhandle v _ (h _ (ChildInfoMap.find_mem _ _ _ h1))
  | AddChildForTesting k child =>
    simp only [Op.apply, AddChildForTesting, OnChildAdded, CreateChildInfoMapEntry] at he
    rcases ChildInfoMap.mem_insertOrAssign _ _ _ _ he with h1 | h1
    · rw [h1]
      exact hnew _
    · exact h e h1
  | SetChildMemoryState FromID k s =>
    simp only [Op.apply] at he
    rcases SetChildMemoryState_children_effective A FromID mc k s with h1 | ⟨c, hf, hs, h1⟩
    · rw [h1] at he
      exact h e he
    · rw [h1] at he
      rcases ChildInfoMap.mem_modify _ _ _ _ he with h2 | ⟨v, h2, h3⟩
      · exact h e h2
      · rw [hf] at h2
        have hv : c = v := Option.some.inj h2
        subst hv
        rw [h3]
        exact hstate c s (h _ (ChildInfoMap.find_mem _ _ _ hf)) hs
  | OnConnectionError k =>
    simp only [Op.apply, OnConnectionError] at he
    exact h e (ChildInfoMap.mem_erase _ _ _ he)

theorem run_forall (P : ChildInfo → Prop) (A : Bool)
    (hnew : ∀ h, P { memory_state := MemoryState.NORMAL, is_visible := true, handle := h })
    (hhandle : ∀ c h, P c → P { c with handle := h })
    (hstate : ∀ c s, P c → s ≠ MemoryState.UNKNOWN →
      P { c with memory_state := OverrideGlobalState A s c })
    (ops : List Op) :
    ∀ mc : MemoryCoordinator, (∀ e ∈ mc.children_, P e.2) →
      ∀ e ∈ (mc.run A ops).children_, P e.2 := by
  induction ops with
  | nil => exact fun mc h => h
  | cons op rest ih =>
    intro mc h
    exact ih _ (Op.apply_forall P A hnew hhandle hstate mc op h)

/-- C14: in every registry reached from the empty registry by any sequence of
`CreateHandle`, `AddChild`, `AddChildForTesting`, `SetChildMemoryState` and
`OnConnectionError`, every entry's stored `memory_state` is NORMAL, THROTTLED or SUSPENDED,
never UNKNOWN; consequently `GetChildMemoryState(id)` is UNKNOWN if and only if `id` has no
entry. -/
theorem reachable_state_never_unknown (A : Bool) (delegate : Option MemoryCoordinatorDelegate)
    (ops : List Op) :
    (∀ e ∈ ((empty delegate).run A ops).children_,
        (e.2.memory_state = MemoryState.NORMAL ∨ e.2.memory_state = MemoryState.THROTTLED ∨
          e.2.memory_state = MemoryState.SUSPENDED) ∧
        e.2.memory_state ≠ MemoryState.UNKNOWN) ∧
      ∀ id, ((empty delegate).run A ops).GetChildMemoryState id = MemoryState.UNKNOWN ↔
        ((empty delegate).run A ops).children_.find id = none := by
  have hinv : ∀ e ∈ ((empty delegate).run A ops).children_,
      e.2.memory_state ≠ MemoryState.UNKNOWN :=
    run_forall (fun c => c.memory_state ≠ MemoryState.UNKNOWN) A
      (fun _ => by simp) (fun _ _ hc => hc)
      (fun c s _ hs => OverrideGlobalState_ne_unknown A s c hs) ops (empty delegate)
      (fun e he => absurd he (List.not_mem_nil _))
  refine ⟨fun e he => ⟨?_, hinv e he⟩, fun id => ?_⟩
  · have h := hinv e he
    cases hst : e.2.memory_state with
    | UNKNOWN => exact absurd hst h
    | NORMAL => exact Or.inl rfl
    | THROTTLED => exact Or.inr (Or.inl rfl)
    | SUSPENDED => exact Or.inr (Or.inr rfl)
  · cases hf : ((empty delegate).run A ops).children_.find id with
    | none => simp [GetChildMemoryState, hf]
    | some c =>
      have h := hinv _ (ChildInfoMap.find_mem _ _ _ hf)
      simp only [GetChildMemoryState, hf]
      exact ⟨fun h2 => absurd h2 h, fun h2 => absurd h2 (by simp)⟩

/-- C20: a renderer the user can see is never suspended: in every registry reached from
the empty registry by any sequence of `CreateHandle`, `AddChild`, `AddChildForTesting`,
`SetChildMemoryState` and `OnConnectionError`, no entry has `is_visible` true together with
stored `memory_state` SUSPENDED. -/
theorem reachable_visible_never_suspended (A : Bool)
    (delegate : Option MemoryCoordinatorDelegate) (ops : List Op) :
    ∀ e ∈ ((empty delegate).run A ops).children_,
      ¬ (e.2.is_visible = true ∧ e.2.memory_state = MemoryState.SUSPENDED) := by
  exact run_forall
    (fun c => ¬ (c.is_visible = true ∧ c.memory_state = MemoryState.SUSPENDED)) A
    (fun _ => by simp) (fun _ _ hc => hc)
    (fun c s _ _ h => OverrideGlobalState_visible_ne_suspended A s c h.1 h.2) ops
    (empty delegate) (fun e he => absurd he (List.not_mem_nil _))

/-- An instance of C20: process 7 registers, binds endpoint 1 and is asked to suspend
while every process is backgrounded and no delegate objects; its entry ends up THROTTLED
and visible. -/
theorem reachable_visible_never_suspended_witness :
    ((7, { memory_state := MemoryState.THROTTLED, is_visible := true,
           handle := boundHandle7 }) : Int × ChildInfo)
        ∈ ((empty none).run false [Op.CreateHandle 7, Op.AddChild 7 (some 1),
            Op.SetChildMemoryState allBackgrounded 7 MemoryState.SUSPENDED]).children_ ∧
      ¬ (true = true ∧ MemoryState.THROTTLED = MemoryState.SUSPENDED) :=
  ⟨by decide,
    reachable_visible_never_suspended false none [Op.CreateHandle 7, Op.AddChild 7 (some 1),
      Op.SetChildMemoryState allBackgrounded 7 MemoryState.SUSPENDED]
      (7, { memory_state := MemoryState.THROTTLED, is_visible := true, handle := boundHandle7 })
      (by decide)⟩

/-- C15: `OnConnectionError(id)` removes the entry for `id` whatever it holds, leaves the
entry of every other id unchanged, keeps the delegate, and changes nothing at all when
`id` has no entry. -/
theorem OnConnectionError_removes (mc : MemoryCoordinator) (id : Int) :
    (mc.OnConnectionError id).children_.find id = none ∧
      (∀ other, other ≠ id →
        (mc.OnConnectionError id).children_.find other = mc.children_.find other) ∧
      (mc.OnConnectionError id).delegate_ = mc.delegate_ ∧
      (mc.children_.find id = none → mc.OnConnectionError id = mc) := by
  refine ⟨ChildInfoMap.find_erase_self _ _,
    fun other h => ChildInfoMap.find_erase_ne _ _ _ h, rfl, fun h => ?_⟩
  simp only [OnConnectionError, ChildInfoMap.erase_of_find_none _ _ h]

/-- C17: `CanSuspendRenderer(id)` is true for every id when the coordinator has no
delegate; when a delegate is present it is true if and only if a `RenderProcessHost`
exists for `id`, that host is backgrounded and the delegate's
`CanSuspendBackgroundedRenderer(id)` answers true. -/
theorem CanSuspendRenderer_spec (FromID : Int → Option RenderProcessHost)
    (children : ChildInfoMap) (delegate : MemoryCoordinatorDelegate) (id : Int) :
    CanSuspendRenderer FromID { delegate_ := none, children_ := children } id = true ∧
      (CanSuspendRenderer FromID { delegate_ := some delegate, children_ := children } id = true ↔
        ∃ host, FromID id = some host ∧ host.IsProcessBackgrounded = true ∧
          delegate.CanSuspendBackgroundedRenderer id = true) := by
  refine ⟨rfl, ?_⟩
  simp only [CanSuspendRenderer]
  cases hh : FromID id with
  | none => simp
  | some host =>
    cases hbg : host.IsProcessBackgrounded <;> simp [hbg]

end MemoryCoordinator

/-! ## Insertion into an ordered registry -/

theorem ChildInfoMap.ordered_cons (k : Int) (w : ChildInfo) (rest : ChildInfoMap) :
    ChildInfoMap.Ordered ((k, w) :: rest) ↔
      (∀ e ∈ rest, k < e.1) ∧ ChildInfoMap.Ordered rest := by
  simp only [ChildInfoMap.Ordered, List.pairwise_cons]

theorem ChildInfoMap.countKey_cons (k id : Int) (w : ChildInfo) (rest : ChildInfoMap) :
    ChildInfoMap.countKey ((k, w) :: rest) id
      = (if k = id then 1 else 0) + ChildInfoMap.countKey rest id := by
  by_cases hk : k = id
  · simp [ChildInfoMap.countKey, List.filter_cons, hk, Nat.add_comm]
  · simp [ChildInfoMap.countKey, List.filter_cons, hk]

theorem ChildInfoMap.countKey_eq_zero (m : ChildInfoMap) (id : Int)
    (h : ∀ e ∈ m, e.1 ≠ id) : ChildInfoMap.countKey m id = 0 := by
  induction m with
  | nil => rfl
  | cons x rest ih =>
    obtain ⟨k, w⟩ := x
    have hk : k ≠ id := h (k, w) (List.mem_cons_self _ _)
    rw [ChildInfoMap.countKey_cons, if_neg hk, ih (fun e he => h e (List.mem_cons_of_mem _ he))]

theorem ChildInfoMap.insertOrAssign_ordered (m : ChildInfoMap) (id : Int) (v : ChildInfo)
    (hO : ChildInfoMap.Ordered m) : ChildInfoMap.Ordered (ChildInfoMap.insertOrAssign m id v) := by
  induction m with
  | nil => simp [ChildInfoMap.insertOrAssign, ChildInfoMap.Ordered]
  | cons x rest ih =>
    obtain ⟨k, w⟩ := x
    obtain ⟨h1, h2⟩ := (ChildInfoMap.ordered_cons k w rest).mp hO
    by_cases hlt : id < k
    · simp only [ChildInfoMap.insertOrAssign, if_pos hlt]
      refine (ChildInfoMap.ordered_cons id v _).mpr ⟨fun e he => ?_, hO⟩
      rcases List.mem_cons.mp he with he | he
      · rw [he]
        exact hlt
      · exact lt_trans hlt (h1 e he)
    · by_cases hk : k = id
      · subst hk
        simp only [ChildInfoMap.insertOrAssign, if_neg hlt, if_true]
        exact (ChildInfoMap.ordered_cons k v _).mpr ⟨h1, h2⟩
      · have hki : k < id := lt_of_le_of_ne (not_lt.mp hlt) hk
        simp only [ChildInfoMap.insertOrAssign, if_neg hlt, if_neg hk]
        refine (ChildInfoMap.ordered_cons k w _).mpr ⟨fun e he => ?_, ih h2⟩
        rcases ChildInfoMap.mem_insertOrAssign _ _ _ _ he with he | he
        · rw [he]
          exact hki
        · exact h1 e he

theorem ChildInfoMap.countKey_insertOrAssign (m : ChildInfoMap) (id : Int) (v : ChildInfo)
    (hO : ChildInfoMap.Ordered m) :
    ChildInfoMap.countKey (ChildInfoMap.insertOrAssign m id v) id = 1 := by
  induction m with
  | nil => simp [ChildInfoMap.insertOrAssign, ChildInfoMap.countKey]
  | cons x rest ih =>
    obtain ⟨k, w⟩ := x
    obtain ⟨h1, h2⟩ := (ChildInfoMap.ordered_cons k w rest).mp hO
    by_cases hlt : id < k
    · simp only [ChildInfoMap.insertOrAssign, if_pos hlt]
      rw [ChildInfoMap.countKey_cons, if_pos rfl, ChildInfoMap.countKey_eq_zero]
      intro e he
      rcases List.mem_cons.mp he with he | he
      · rw [he]
        exact ne_of_gt hlt
      · exact ne_of_gt (lt_trans hlt (h1 e he))
    · by_cases hk : k = id
      · subst hk
        simp only [ChildInfoMap.insertOrAssign, if_neg hlt, if_true]
        rw [ChildInfoMap.countKey_cons, if_pos rfl, ChildInfoMap.countKey_eq_zero]
        exact fun e he => ne_of_gt (h1 e he)
      · simp only [ChildInfoMap.insertOrAssign, if_neg hlt, if_neg hk]
        rw [ChildInfoMap.countKey_cons, if_neg hk, ih h2]

theorem ChildInfoMap.length_insertOrAssign (m : ChildInfoMap) (id : Int) (v old : ChildInfo)
    (hO : ChildInfoMap.Ordered m) (hf : ChildInfoMap.find m id = some old) :
    (ChildInfoMap.insertOrAssign m id v).length = m.length := by
  induction m with
  | nil => exact absurd hf (by simp [ChildInfoMap.find])
  | cons x rest ih =>
    obtain ⟨k, w⟩ := x
    obtain ⟨h1, h2⟩ := (ChildInfoMap.ordered_cons k w rest).mp hO
    by_cases hk : k = id
    · subst hk
      simp only [ChildInfoMap.insertOrAssign, if_neg (lt_irrefl k), if_true, List.length_cons]
    · rw [ChildInfoMap.find_cons_ne _ _ _ _ hk] at hf
      have hki : k < id := h1 (id, old) (ChildInfoMap.find_mem _ _ _ hf)
      simp only [ChildInfoMap.insertOrAssign, if_neg (not_lt.mpr (le_of_lt hki)), if_neg hk,
        List.length_cons, ih h2 hf]

namespace MemoryCoordinator

/-- C16: when `CreateHandle(id)` is called for an id that already has an entry in a
registry with the `std::map` invariant, the last write wins: afterwards the registry has
exactly one entry under `id`, its `memory_state` is NORMAL, its `is_visible` is true and its
handle is the newly created, unbound one; no slot was added (the registry has as many
entries as before and still has the invariant) and the entry of every other id is
unchanged. -/
theorem CreateHandle_overwrites (mc : MemoryCoordinator) (id : Int) (old : ChildInfo)
    (hO : mc.children_.Ordered) (hf : mc.children_.find id = some old) :
    (mc.CreateHandle id).children_.countKey id = 1 ∧
      (mc.CreateHandle id).children_.find id
        = some { memory_state := MemoryState.NORMAL, is_visible := true,
                 handle := { render_process_id_ := id, child_ := none,
                             connection_error_handler := some id } } ∧
      (mc.CreateHandle id).children_.length = mc.children_.length ∧
      (mc.CreateHandle id).children_.Ordered ∧
      ∀ other, other ≠ id →
        (mc.CreateHandle id).children_.find other = mc.children_.find other := by
  simp only [CreateHandle, CreateChildInfoMapEntry, MemoryCoordinatorHandleImpl.new]
  exact ⟨ChildInfoMap.countKey_insertOrAssign _ _ _ hO,
    ChildInfoMap.find_insertOrAssign_self _ _ _,
    ChildInfoMap.length_insertOrAssign _ _ _ old hO hf,
    ChildInfoMap.insertOrAssign_ordered _ _ _ hO,
    fun other h => ChildInfoMap.find_insertOrAssign_ne _ _ _ _ h⟩

/-- An instance of C16: `CreateHandle(7)` on a registry whose entry for 7 is bound, hidden
and THROTTLED. -/
theorem CreateHandle_overwrites_witness :
    coordinatorWithHidden7.children_.find 7 = some hiddenChild7 ∧
      (coordinatorWithHidden7.CreateHandle 7).children_.countKey 7 = 1 ∧
      (coordinatorWithHidden7.CreateHandle 7).children_.find 7
        = some { memory_state := MemoryState.NORMAL, is_visible := true,
                 handle := { render_process_id_ := 7, child_ := none,
                             connection_error_handler := some 7 } } ∧
      (coordinatorWithHidden7.CreateHandle 7).children_.length
        = coordinatorWithHidden7.children_.length :=
  ⟨by decide,
    (CreateHandle_overwrites coordinatorWithHidden7 7 hiddenChild7
      (by simp [coordinatorWithHidden7]) (by decide)).1,
    (CreateHandle_overwrites coordinatorWithHidden7 7 hiddenChild7
      (by simp [coordinatorWithHidden7]) (by decide)).2.1,
    (CreateHandle_overwrites coordinatorWithHidden7 7 hiddenChild7
      (by simp [coordinatorWithHidden7]) (by decide)).2.2.1⟩

theorem Op.apply_state_of_not_set (A : Bool) (mc : MemoryCoordinator) (op : Op) (id : Int)
    (c c2 : ChildInfo) (hop : op.isSetChildMemoryState = false)
    (hreg : op.registers id = false)
    (hb : mc.children_.find id = some c)
    (ha : (Op.apply A mc op).children_.find id = some c2) :
    c2.memory_state = c.memory_state := by
  cases op with
  | CreateHandle k =>
    have hk : id ≠ k := fun h2 => by simp [Op.registers, h2] at hreg
    simp only [Op.apply, CreateHandle, CreateChildInfoMapEntry] at ha
    rw [ChildInfoMap.find_insertOrAssign_ne _ _ _ _ hk, hb] at ha
    rw [← Option.some.inj ha]
  | AddChild k child =>
    simp only [Op.apply, AddChild, OnChildAdded] at ha
    by_cases hk : id = k
    · subst hk
      rw [ChildInfoMap.find_modify_self, hb] at ha
      rw [← Option.some.inj ha]
    · rw [ChildInfoMap.find_modify_ne _ _ _ _ hk, hb] at ha
      rw [← Option.some.inj ha]
  | AddChildForTesting k child =>
    have hk : id ≠ k := fun h2 => by simp [Op.registers, h2] at hreg
    simp only [Op.apply, AddChildForTesting, OnChildAdded, CreateChildInfoMapEntry] at ha
    rw [ChildInfoMap.find_insertOrAssign_ne _ _ _ _ hk, hb] at ha
    rw [← Option.some.inj ha]
  | SetChildMemoryState FromID k s => exact absurd hop (by simp [Op.isSetChildMemoryState])
  | OnConnectionError k =>
    simp only [Op.apply, OnConnectionError] at ha
    by_cases hk : id = k
    · subst hk
      rw [ChildInfoMap.find_erase_self] at ha
      exact absurd ha (by simp)
    · rw [ChildInfoMap.find_erase_ne _ _ _ hk, hb] at ha
      rw [← Option.some.inj ha]

theorem Op.apply_state_of_registers (A : Bool) (mc : MemoryCoordinator) (op : Op) (id : Int)
    (c2 : ChildInfo) (hreg : op.registers id = true)
    (ha : (Op.apply A mc op).children_.find id = some c2) :
    c2.memory_state = MemoryState.NORMAL ∧ c2.is_visible = true := by
  cases op with
  | CreateHandle k =>
    have hk : k = id := by simpa [Op.registers] using hreg
    subst hk
    simp only [Op.apply, CreateHandle, CreateChildInfoMapEntry] at ha
    rw [ChildInfoMap.find_insertOrAssign_self] at ha
    rw [← Option.some.inj ha]
    exact ⟨rfl, rfl⟩
  | AddChild k child => exact absurd hreg (by simp [Op.registers])
  | AddChildForTesting k child =>
    have hk : k = id := by simpa [Op.registers] using hreg
    subst hk
    simp only [Op.apply, AddChildForTesting, OnChildAdded, CreateChildInfoMapEntry] at ha
    rw [ChildInfoMap.find_insertOrAssign_self] at ha
    rw [← Option.some.inj ha]
    exact ⟨rfl, rfl⟩
  | SetChildMemoryState FromID k s => exact absurd hreg (by simp [Op.registers])
  | OnConnectionError k => exact absurd hreg (by simp [Op.registers])

/-- C18, the claim as stated fails: after process 7 has registered, bound its endpoint and
been moved to THROTTLED, a second `CreateHandle(7)`, which is not a call of
`SetChildMemoryState`, finds an entry for 7 before and leaves one after, and the stored
state goes from THROTTLED to NORMAL. -/
theorem CreateHandle_resets_state :
    Op.isSetChildMemoryState (Op.CreateHandle 7) = false ∧
      (((empty none).run false registerBindThrottle7).children_.find 7).isSome = true ∧
      ((Op.apply false ((empty none).run false registerBindThrottle7)
        (Op.CreateHandle 7)).children_.find 7).isSome = true ∧
      ((empty none).run false registerBindThrottle7).GetChildMemoryState 7
        = MemoryState.THROTTLED ∧
      (Op.apply false ((empty none).run false registerBindThrottle7)
        (Op.CreateHandle 7)).GetChildMemoryState 7 = MemoryState.NORMAL := by
  decide

/-- C18, amended: the stored `memory_state` of a registered renderer changes only through
`SetChildMemoryState` or through registration of the same id again. For every operation
other than `SetChildMemoryState` and every id that has an entry both before and after it:
if the operation does not register that id (`AddChild`, `OnConnectionError`, and
`CreateHandle` / `AddChildForTesting` for another id) the stored state is the same before
and after; if it does (`CreateHandle(id)` / `AddChildForTesting(id)`) the stored state
afterwards is NORMAL. `GetChildMemoryState` is a pure read of the coordinator. -/
theorem state_changes_only_by_set_or_registration (A : Bool) (mc : MemoryCoordinator)
    (op : Op) (id : Int) (c c2 : ChildInfo) (hop : op.isSetChildMemoryState = false)
    (hb : mc.children_.find id = some c)
    (ha : (Op.apply A mc op).children_.find id = some c2) :
    (op.registers id = false → c2.memory_state = c.memory_state) ∧
      (op.registers id = true → c2.memory_state = MemoryState.NORMAL) :=
  ⟨fun hreg => Op.apply_state_of_not_set A mc op id c c2 hop hreg hb ha,
    fun hreg => (Op.apply_state_of_registers A mc op id c2 hreg ha).1⟩

/-- An instance of amended C18: a late `AddChild` on the THROTTLED, hidden entry of
process 7 keeps its state. -/
theorem state_changes_only_by_set_or_registration_witness :
    coordinatorWithHidden7.children_.find 7 = some hiddenChild7 ∧
      (Op.apply false coordinatorWithHidden7 (Op.AddChild 7 (some 5))).children_.find 7
        = some { hiddenChild7 with handle := hiddenChild7.handle.AddChild (some 5) } ∧
      ({ hiddenChild7 with handle := hiddenChild7.handle.AddChild (some 5) } :
        ChildInfo).memory_state = hiddenChild7.memory_state :=
  ⟨by decide, by decide,
    (state_changes_only_by_set_or_registration false coordinatorWithHidden7
      (Op.AddChild 7 (some 5)) 7 hiddenChild7
      { hiddenChild7 with handle := hiddenChild7.handle.AddChild (some 5) }
      (by decide) (by decide) (by decide)).1 (by decide)⟩

/-- C19: no self-transition is pushed to a renderer. In the coordinator reached by any
sequence of operations from any coordinator, each `OnStateChange` sent by a call of
`SetChildMemoryState` goes to the endpoint bound in the entry of that id, is the only
notification of the call, carries a state different from the one stored for that child
immediately before the call, and equal to the one stored immediately after it. -/
theorem no_self_transition_pushed (A : Bool) (mc0 : MemoryCoordinator) (ops : List Op)
    (FromID : Int → Option RenderProcessHost) (id : Int) (s : MemoryState)
    (msg : OnStateChange)
    (hmsg : msg ∈ (SetChildMemoryState A FromID (mc0.run A ops) id s).sent) :
    ∃ child, (mc0.run A ops).children_.find id = some child ∧
      child.handle.child_ = some msg.child ∧
      (SetChildMemoryState A FromID (mc0.run A ops) id s).sent = [msg] ∧
      msg.state ≠ child.memory_state ∧
      msg.state ≠ (mc0.run A ops).GetChildMemoryState id ∧
      (SetChildMemoryState A FromID (mc0.run A ops) id s).coordinator.GetChildMemoryState id
        = msg.state := by
  by_cases hs : s = MemoryState.UNKNOWN
  · subst hs
    rw [SetChildMemoryState_of_unknown] at hmsg
    exact absurd hmsg (List.not_mem_nil _)
  · cases hf : (mc0.run A ops).children_.find id with
    | none =>
      rw [SetChildMemoryState_of_absent A FromID _ id s hf] at hmsg
      exact absurd hmsg (List.not_mem_nil _)
    | some child =>
      cases hb : child.handle.child_ with
      | none =>
        rw [SetChildMemoryState_of_unbound A FromID _ id s child hf hb] at hmsg
        exact absurd hmsg (List.not_mem_nil _)
      | some endpoint =>
        rw [SetChildMemoryState_of_bound A FromID _ id s child endpoint hs hf hb] at hmsg ⊢
        by_cases h1 : child.memory_state = OverrideGlobalState A s child
        · rw [if_pos h1] at hmsg
          exact absurd hmsg (List.not_mem_nil _)
        · by_cases h2 : OverrideGlobalState A s child = MemoryState.SUSPENDED ∧
              CanSuspendRenderer FromID (mc0.run A ops) id = false
          · rw [if_neg h1, if_pos h2] at hmsg
            exact absurd hmsg (List.not_mem_nil _)
          · rw [if_neg h1, if_neg h2] at hmsg ⊢
            rw [List.mem_singleton] at hmsg
            subst hmsg
            refine ⟨child, rfl, hb, rfl, fun h => h1 h.symm, ?_, ?_⟩
            · rw [GetChildMemoryState_of_find _ id child hf]
              exact fun h => h1 h.symm
            · simp only [GetChildMemoryState, ChildInfoMap.find_modify_self, hf,
                Option.map_some']

/-- An instance of C19: after process 7 has registered and bound endpoint 1, a request for
THROTTLED sends one notification, carrying THROTTLED, while NORMAL was stored. -/
theorem no_self_transition_pushed_witness :
    ∃ child, ((empty none).run false [Op.CreateHandle 7, Op.AddChild 7 (some 1)]).children_.find 7
        = some child ∧
      child.handle.child_ = some 1 ∧
      (SetChildMemoryState false noHosts
        ((empty none).run false [Op.CreateHandle 7, Op.AddChild 7 (some 1)]) 7
        MemoryState.THROTTLED).sent = [{ child := 1, state := MemoryState.THROTTLED }] ∧
      MemoryState.THROTTLED ≠ child.memory_state ∧
      MemoryState.THROTTLED
        ≠ ((empty none).run false [Op.CreateHandle 7, Op.AddChild 7 (some 1)]).GetChildMemoryState
          7 ∧
      (SetChildMemoryState false noHosts
        ((empty none).run false [Op.CreateHandle 7, Op.AddChild 7 (some 1)]) 7
        MemoryState.THROTTLED).coordinator.GetChildMemoryState 7 = MemoryState.THROTTLED :=
  no_self_transition_pushed false (empty none) [Op.CreateHandle 7, Op.AddChild 7 (some 1)]
    noHosts 7 MemoryState.THROTTLED { child := 1, state := MemoryState.THROTTLED } (by decide)

end MemoryCoordinator

/-! ## The `std::map` invariant is kept by every operation -/

theorem ChildInfoMap.modify_ordered (m : ChildInfoMap) (id : Int) (f : ChildInfo → ChildInfo)
    (hO : ChildInfoMap.Ordered m) : ChildInfoMap.Ordered (ChildInfoMap.modify m id f) := by
  induction m with
  | nil => exact hO
  | cons x rest ih =>
    obtain ⟨k, w⟩ := x
    obtain ⟨h1, h2⟩ := (ChildInfoMap.ordered_cons k w rest).mp hO
    by_cases hk : k = id
    · simp only [ChildInfoMap.modify, if_pos hk]
      exact (ChildInfoMap.ordered_cons k _ rest).mpr ⟨h1, h2⟩
    · simp only [ChildInfoMap.modify, if_neg hk]
      refine (ChildInfoMap.ordered_cons k w _).mpr ⟨fun e he => ?_, ih h2⟩
      rcases ChildInfoMap.mem_modify _ _ _ _ he with he | ⟨v, hv, he⟩
      · exact h1 e he
      · rw [he]
        exact h1 (id, v) (ChildInfoMap.find_mem _ _ _ hv)

theorem ChildInfoMap.erase_ordered (m : ChildInfoMap) (id : Int)
    (hO : ChildInfoMap.Ordered m) : ChildInfoMap.Ordered (ChildInfoMap.erase m id) := by
  induction m with
  | nil => exact hO
  | cons x rest ih =>
    obtain ⟨k, w⟩ := x
    obtain ⟨h1, h2⟩ := (ChildInfoMap.ordered_cons k w rest).mp hO
    by_cases hk : k = id
    · simp only [ChildInfoMap.erase, if_pos hk]
      exact ih h2
    · simp only [ChildInfoMap.erase, if_neg hk]
      exact (ChildInfoMap.ordered_cons k w _).mpr
        ⟨fun e he => h1 e (ChildInfoMap.mem_erase _ _ _ he), ih h2⟩

namespace MemoryCoordinator

theorem Op.apply_ordered (A : Bool) (mc : MemoryCoordinator) (op : Op)
    (hO : mc.children_.Ordered) : (Op.apply A mc op).children_.Ordered := by
  cases op with
  | CreateHandle k => exact ChildInfoMap.insertOrAssign_ordered _ _ _ hO
  | AddChild k child => exact ChildInfoMap.modify_ordered _ _ _ hO
  | AddChildForTesting k child => exact ChildInfoMap.insertOrAssign_ordered _ _ _ hO
  | SetChildMemoryState FromID k s =>
    simp only [Op.apply]
    rcases SetChildMemoryState_children A FromID mc k s with h | ⟨st, h⟩
    · rw [h]
      exact hO
    · rw [h]
      exact ChildInfoMap.modify_ordered _ _ _ hO
  | OnConnectionError k => exact ChildInfoMap.erase_ordered _ _ hO

theorem run_ordered (A : Bool) (ops : List Op) :
    ∀ mc : MemoryCoordinator, mc.children_.Ordered → (mc.run A ops).children_.Ordered := by
  induction ops with
  | nil => exact fun mc h => h
  | cons op rest ih => exact fun mc h => ih _ (Op.apply_ordered A mc op h)

end MemoryCoordinator

/-! ## Memory-pressure recording and the frame of `SetChildMemoryState` -/

theorem ChildInfoMap.keys_modify (m : ChildInfoMap) (id : Int) (f : ChildInfo → ChildInfo) :
    (ChildInfoMap.modify m id f).map Prod.fst = m.map Prod.fst := by
  induction m with
  | nil => rfl
  | cons x rest ih =>
    obtain ⟨k, w⟩ := x
    by_cases hk : k = id
    · simp only [ChildInfoMap.modify, if_pos hk, List.map_cons]
    · simp only [ChildInfoMap.modify, if_neg hk, List.map_cons, ih]

namespace MemoryCoordinator

/-- C22: `SetChildMemoryState(id, s)` changes at most the `memory_state` field of the
entry for `id`, whether it returns true or false: the registered ids (the keys of the
registry, in order) are the same, every other id finds the same entry, the entry for `id`
has the same `is_visible` flag and the same handle (hence the same binding), and the
delegate is the same. -/
theorem SetChildMemoryState_frame (A : Bool) (FromID : Int → Option RenderProcessHost)
    (mc : MemoryCoordinator) (id : Int) (s : MemoryState) :
    (SetChildMemoryState A FromID mc id s).coordinator.children_.map Prod.fst
        = mc.children_.map Prod.fst ∧
      (∀ other, other ≠ id →
        (SetChildMemoryState A FromID mc id s).coordinator.children_.find other
          = mc.children_.find other) ∧
      ((SetChildMemoryState A FromID mc id s).coordinator.children_.find id).map
          (fun c => c.is_visible) = (mc.children_.find id).map (fun c => c.is_visible) ∧
      ((SetChildMemoryState A FromID mc id s).coordinator.children_.find id).map
          (fun c => c.handle) = (mc.children_.find id).map (fun c => c.handle) ∧
      (SetChildMemoryState A FromID mc id s).coordinator.delegate_ = mc.delegate_ := by
  refine ⟨?_, ?_, ?_, ?_, SetChildMemoryState_delegate A FromID mc id s⟩
  · rcases SetChildMemoryState_children A FromID mc id s with h | ⟨st, h⟩
    · rw [h]
    · rw [h, ChildInfoMap.keys_modify]
  · intro other hne
    rcases SetChildMemoryState_children A FromID mc id s with h | ⟨st, h⟩
    · rw [h]
    · rw [h, ChildInfoMap.find_modify_ne _ _ _ _ hne]
  · rcases SetChildMemoryState_children A FromID mc id s with h | ⟨st, h⟩
    · rw [h]
    · rw [h, ChildInfoMap.find_modify_self]
      cases mc.children_.find id <;> rfl
  · rcases SetChildMemoryState_children A FromID mc id s with h | ⟨st, h⟩
    · rw [h]
    · rw [h, ChildInfoMap.find_modify_self]
      cases mc.children_.find id <;> rfl

end MemoryCoordinator

end content

/-! ## `gpu_memory_buffer_support.cc` -/

namespace gpu

/-- C25: when `--use-gl` names the OSMesa implementation, `AreNativeGpuMemoryBuffersEnabled`
returns false and `GetNativeGpuMemoryBufferConfigurations` returns the empty set, on every
platform variant (any combination of `OS_MACOSX` and `USE_OZONE`), whatever the
enable/disable switches are and whichever configurations are reported as supported. -/
theorem osmesa_has_no_native_buffers (build : BuildConfig) (osmesa_name : String)
    (command_line : CommandLine) (supported : BufferFormat → BufferUsage → Bool)
    (h : command_line.use_gl = osmesa_name) :
    AreNativeGpuMemoryBuffersEnabled build osmesa_name command_line = false ∧
      GetNativeGpuMemoryBufferConfigurations build osmesa_name command_line supported = [] := by
  have h1 : AreNativeGpuMemoryBuffersEnabled build osmesa_name command_line = false := by
    simp only [AreNativeGpuMemoryBuffersEnabled, if_pos h]
  refine ⟨h1, ?_⟩
  simp only [GetNativeGpuMemoryBufferConfigurations, h1]
  simp [h]

/-- An instance of C25: the Mac build, `--use-gl=osmesa` together with the enable switch,
every configuration reported as supported. -/
theorem osmesa_has_no_native_buffers_witness :
    osmesaCommandLine.use_gl = "osmesa" ∧
      AreNativeGpuMemoryBuffersEnabled macBuild "osmesa" osmesaCommandLine = false ∧
      GetNativeGpuMemoryBufferConfigurations macBuild "osmesa" osmesaCommandLine
        (fun _ _ => true) = [] :=
  ⟨rfl, osmesa_has_no_native_buffers macBuild "osmesa" osmesaCommandLine (fun _ _ => true) rfl⟩

end gpu

/-! ## `security_handler.cc` -/

namespace content.devtools.security

theorem AddExplanations_eq (security_style : String)
    (explanations_to_add : List SecurityStyleExplanation)
    (explanations : List SecurityStateExplanation) :
    AddExplanations security_style explanations_to_add explanations
      = explanations ++ explanations_to_add.map (tagged security_style) := by
  unfold AddExplanations
  induction explanations_to_add generalizing explanations with
  | nil => simp
  | cons it rest ih =>
    rw [List.foldl_cons, ih]
    simp [tagged]

/-- C26: the explanations list that `DidChangeVisibleSecurityState` sends is the
concatenation, in this order, of the broken explanations tagged `kSecurityStateInsecure`,
the unauthenticated ones tagged `kSecurityStateNeutral`, the secure ones tagged
`kSecurityStateSecure` and the info ones tagged `kSecurityStateInfo`; each group keeps its
input order and each item its summary, description and has_certificate, and the length of
the list is the sum of the four input lengths. -/
theorem DidChangeVisibleSecurityState_explanations_eq (names : SecurityStateNames)
    (e : SecurityStyleExplanations) :
    DidChangeVisibleSecurityState_explanations names e
        = e.broken_explanations.map (tagged names.kSecurityStateInsecure)
          ++ e.unauthenticated_explanations.map (tagged names.kSecurityStateNeutral)
          ++ e.secure_explanations.map (tagged names.kSecurityStateSecure)
          ++ e.info_explanations.map (tagged names.kSecurityStateInfo) ∧
      (DidChangeVisibleSecurityState_explanations names e).length
        = e.broken_explanations.length + e.unauthenticated_explanations.length
          + e.secure_explanations.length + e.info_explanations.length ∧
      (∀ (state : String) (it : SecurityStyleExplanation),
        (tagged state it).security_state = state ∧ (tagged state it).summary = it.summary ∧
        (tagged state it).description = it.description ∧
        (tagged state it).has_certificate = it.has_certificate) := by
  have h : DidChangeVisibleSecurityState_explanations names e
      = e.broken_explanations.map (tagged names.kSecurityStateInsecure)
        ++ e.unauthenticated_explanations.map (tagged names.kSecurityStateNeutral)
        ++ e.secure_explanations.map (tagged names.kSecurityStateSecure)
        ++ e.info_explanations.map (tagged names.kSecurityStateInfo) := by
    simp only [DidChangeVisibleSecurityState_explanations, AddExplanations_eq, List.nil_append]
  refine ⟨h, ?_, fun _ _ => ⟨rfl, rfl, rfl, rfl⟩⟩
  rw [h]
  simp only [List.length_append, List.length_map]

end content.devtools.security

/-! ## `system_tray_client.cc` -/

namespace SystemTrayClient

/-- C28: `GetUserLoginStatus` returns NOT_LOGGED_IN whenever no user is logged in
(whatever the lock state and user type), LOCKED whenever a user is logged in and the
screen is locked (for every user type), and otherwise the status the table assigns to the
logged-in user type: NONE to NOT_LOGGED_IN, REGULAR to USER, OWNER to OWNER, GUEST to
GUEST, PUBLIC_ACCOUNT to PUBLIC, SUPERVISED to SUPERVISED, KIOSK_APP to KIOSK_APP,
ARC_KIOSK_APP to ARC_KIOSK_APP, a one-to-one table; `NOTREACHED()` is never hit. -/
theorem GetUserLoginStatus_spec :
    (∀ locked user_type, (GetUserLoginStatus false locked user_type).status
        = LoginStatus.NOT_LOGGED_IN) ∧
      (∀ user_type, (GetUserLoginStatus true true user_type).status = LoginStatus.LOCKED) ∧
      (∀ user_type, (GetUserLoginStatus true false user_type).status
        = statusOfUserType user_type) ∧
      (statusOfUserType LoggedInUserType.LOGGED_IN_USER_NONE = LoginStatus.NOT_LOGGED_IN ∧
        statusOfUserType LoggedInUserType.LOGGED_IN_USER_REGULAR = LoginStatus.USER ∧
        statusOfUserType LoggedInUserType.LOGGED_IN_USER_OWNER = LoginStatus.OWNER ∧
        statusOfUserType LoggedInUserType.LOGGED_IN_USER_GUEST = LoginStatus.GUEST ∧
        statusOfUserType LoggedInUserType.LOGGED_IN_USER_PUBLIC_ACCOUNT = LoginStatus.PUBLIC ∧
        statusOfUserType LoggedInUserType.LOGGED_IN_USER_SUPERVISED = LoginStatus.SUPERVISED ∧
        statusOfUserType LoggedInUserType.LOGGED_IN_USER_KIOSK_APP = LoginStatus.KIOSK_APP ∧
        statusOfUserType LoggedInUserType.LOGGED_IN_USER_ARC_KIOSK_APP
          = LoginStatus.ARC_KIOSK_APP) ∧
      Function.Injective statusOfUserType ∧
      (∀ logged_in locked user_type,
        (GetUserLoginStatus logged_in locked user_type).notreached_hit = false) := by
  refine ⟨?_, ?_, ?_, ⟨rfl, rfl, rfl, rfl, rfl, rfl, rfl, rfl⟩, ?_, ?_⟩
  · intro locked user_type
    rfl
  · intro user_type
    rfl
  · intro user_type
    cases user_type <;> rfl
  · intro a b hab
    cases a <;> cases b <;> first | rfl | exact absurd hab (by decide)
  · intro logged_in locked user_type
    cases logged_in <;> cases locked <;> cases user_type <;> rfl

end SystemTrayClient

/-! ## `out_of_process_native_runner.cc` -/

namespace service_manager

theorem OutOfProcessNativeRunner.AppCompleted_idle :
    OutOfProcessNativeRunner.AppCompleted
        { app_completed_callback_ := none, child_process_host_ := none }
      = ({ app_completed_callback_ := none, child_process_host_ := none }, []) := by
  rfl

theorem OutOfProcessNativeRunner.AppCompletedTimes_idle (n : Nat) :
    OutOfProcessNativeRunner.AppCompletedTimes n
        { app_completed_callback_ := none, child_process_host_ := none }
      = ({ app_completed_callback_ := none, child_process_host_ := none },
          List.replicate n []) := by
  induction n with
  | zero => rfl
  | succ k ih =>
    simp only [OutOfProcessNativeRunner.AppCompletedTimes,
      OutOfProcessNativeRunner.AppCompleted_idle, ih, List.replicate_succ]

theorem OutOfProcessNativeRunner.AppCompleted_fst (r : OutOfProcessNativeRunner) :
    r.AppCompleted.1 = { app_completed_callback_ := none, child_process_host_ := none } := by
  unfold OutOfProcessNativeRunner.AppCompleted
  cases r.app_completed_callback_ <;> rfl

/-- C27: after `Start(..., app_completed_callback)` the completion callback is run at most
once. With a callback `c` that is not null, the first `AppCompleted` call joins and
destroys the child process host created by `Start`, leaves the stored callback null and
then runs `c`, exactly once and as its last action; every later `AppCompleted` call does
nothing, so it runs no callback. Whatever callback was passed (null or not), any number of
`AppCompleted` calls after `Start` runs a callback at most once in total. -/
theorem AppCompleted_runs_callback_once (r : OutOfProcessNativeRunner) (new_host c : Nat) :
    ((r.Start new_host (some c)).AppCompleted).2
        = [RunnerEvent.Join new_host, RunnerEvent.Destroy new_host, RunnerEvent.Run c] ∧
      ((r.Start new_host (some c)).AppCompleted).1
        = { app_completed_callback_ := none, child_process_host_ := none } ∧
      (∀ n, (OutOfProcessNativeRunner.AppCompletedTimes n
          ((r.Start new_host (some c)).AppCompleted).1).2 = List.replicate n []) ∧
      (∀ n, ((OutOfProcessNativeRunner.AppCompletedTimes (n + 1)
          (r.Start new_host (some c))).2.flatten.filter RunnerEvent.isRun)
          = [RunnerEvent.Run c]) ∧
      (∀ n callback, ((OutOfProcessNativeRunner.AppCompletedTimes n
          (r.Start new_host callback)).2.flatten.filter RunnerEvent.isRun).length ≤ 1) := by
  have hlater : ∀ n (r2 : OutOfProcessNativeRunner),
      (OutOfProcessNativeRunner.AppCompletedTimes n r2.AppCompleted.1).2
        = List.replicate n [] := by
    intro n r2
    rw [OutOfProcessNativeRunner.AppCompleted_fst,
      OutOfProcessNativeRunner.AppCompletedTimes_idle]
  have hjoin : ∀ n, (List.replicate n ([] : List RunnerEvent)).flatten = [] := by
    intro n
    induction n with
    | zero => rfl
    | succ k ih => simp [List.replicate_succ, ih]
  refine ⟨rfl, rfl, fun n => hlater n _, fun n => ?_, fun n callback => ?_⟩
  · simp only [OutOfProcessNativeRunner.AppCompletedTimes, hlater, List.flatten_cons, hjoin,
      List.append_nil]
    rfl
  · cases n with
    | zero => simp [OutOfProcessNativeRunner.AppCompletedTimes]
    | succ k =>
      simp only [OutOfProcessNativeRunner.AppCompletedTimes, hlater, List.flatten_cons, hjoin,
        List.append_nil]
      cases callback with
      | none => simp [OutOfProcessNativeRunner.Start, OutOfProcessNativeRunner.AppCompleted,
          RunnerEvent.isRun]
      | some cb => simp [OutOfProcessNativeRunner.Start, OutOfProcessNativeRunner.AppCompleted,
          RunnerEvent.isRun]

end service_manager

/-! ## `synthetic_pointer_action_params.cc` -/

namespace content

/-- C29: the copy constructor of `SyntheticPointerActionParams` yields an object with the
same pointer action type and the same gesture source type as the original for every action
type, with the same index for every action type except FINISH, and with the same position
when the action type is PRESS or MOVE. -/
theorem SyntheticPointerActionParams.copy_spec {F : Type} [Zero F] (indeterminate : Int)
    (other : SyntheticPointerActionParams F) :
    (SyntheticPointerActionParams.copy indeterminate other).pointer_action_type_
        = other.pointer_action_type_ ∧
      (SyntheticPointerActionParams.copy indeterminate other).gesture_source_type
        = other.gesture_source_type ∧
      (other.pointer_action_type_ ≠ PointerActionType.FINISH →
        (SyntheticPointerActionParams.copy indeterminate other).index_ = other.index_) ∧
      (other.pointer_action_type_ = PointerActionType.PRESS ∨
          other.pointer_action_type_ = PointerActionType.MOVE →
        (SyntheticPointerActionParams.copy indeterminate other).position_ = other.position_) := by
  unfold SyntheticPointerActionParams.copy
  cases h : other.pointer_action_type_ <;> simp [h]

end content

/-! ## `action_logger_util.cc` -/

namespace ui.test

theorem String.append_ne_empty_right (a b : String) (hb : b ≠ "") : a ++ b ≠ "" := by
  intro h
  apply hb
  have h2 := congrArg String.length h
  rw [String.length_append] at h2
  have h3 : b.length = 0 := by
    have : ("" : String).length = 0 := rfl
    omega
  exact String.ext (List.length_eq_zero.mp h3)

theorem JoinActionsLoop_eq (actions : String) (args : List String)
    (hne : ∀ a ∈ args, a ≠ "") :
    JoinActionsLoop actions args =
      if actions = "" then commaSeparated args
      else if args = [] then actions
      else actions ++ "," ++ commaSeparated args := by
  induction args generalizing actions with
  | nil =>
    by_cases h : actions = ""
    · simp [JoinActionsLoop, commaSeparated, h]
    · simp [JoinActionsLoop, h]
  | cons a rest ih =>
    have ha : a ≠ "" := hne a (List.mem_cons_self _ _)
    have hrest : ∀ b ∈ rest, b ≠ "" := fun b hb => hne b (List.mem_cons_of_mem _ hb)
    simp only [JoinActionsLoop]
    rw [ih _ hrest]
    by_cases h : actions = ""
    · subst h
      have h1 : ("" : String) ++ a = a := String.empty_append a
      simp only [ne_eq, not_true_eq_false, if_false, h1, if_neg ha, if_true]
      cases rest with
      | nil => simp [commaSeparated]
      | cons b rest2 => simp [commaSeparated]
    · have h1 : actions ++ "," ++ a ≠ "" := String.append_ne_empty_right _ _ ha
      simp only [ne_eq, h, not_false_eq_true, if_true, if_neg h1, if_false]
      cases rest with
      | nil => simp [commaSeparated]
      | cons b rest2 => simp [commaSeparated, String.append_assoc]

/-- C30: for every list of non-empty action strings (the arguments before the terminating
`NULL`), `JoinActions` returns the strings concatenated in order with a single `,` between
consecutive strings and none before the first or after the last; for the empty list
(first argument `NULL`) it returns the empty string. -/
theorem JoinActions_eq_commaSeparated (args : List String) (hne : ∀ a ∈ args, a ≠ "") :
    JoinActions args = commaSeparated args ∧ JoinActions [] = "" := by
  refine ⟨?_, rfl⟩
  unfold JoinActions
  rw [JoinActionsLoop_eq "" args hne, if_pos rfl]

/-- An instance of C30: three actions. -/
theorem JoinActions_eq_commaSeparated_witness :
    JoinActions ["a", "bc", "d"] = commaSeparated ["a", "bc", "d"] ∧ JoinActions [] = "" :=
  JoinActions_eq_commaSeparated ["a", "bc", "d"] (by decide)

end ui.test

/-! ## `resource_prefetch_predictor_browsertest.cc`: duplicate removal -/

namespace predictors

theorem mem_stableInsert {α : Type} (comp : α → α → Bool) (x e : α) (l : List α) :
    e ∈ stableInsert comp x l ↔ e = x ∨ e ∈ l := by
  induction l with
  | nil => simp [stableInsert]
  | cons y ys ih =>
    by_cases h : comp y x = true
    · simp only [stableInsert, if_pos h, List.mem_cons, ih]
      tauto
    · simp only [stableInsert, if_neg h, List.mem_cons]

theorem filter_stableInsert {U R : Type} [LinearOrder U] (u : U) (x : URLRequestSummary U R)
    (l : List (URLRequestSummary U R)) :
    (stableInsert lessByUrl x l).filter (hasUrl u) = (x :: l).filter (hasUrl u) := by
  induction l with
  | nil => rfl
  | cons y ys ih =>
    by_cases h : lessByUrl y x = true
    · simp only [stableInsert, if_pos h]
      rw [List.filter_cons, ih]
      have hlt : y.resource_url < x.resource_url := by simpa [lessByUrl] using h
      by_cases hx : x.resource_url = u
      · have hy : ¬ y.resource_url = u := fun hy => absurd hlt (by rw [hx, hy]; exact lt_irrefl u)
        simp [List.filter_cons, hasUrl, hx, hy]
      · simp [List.filter_cons, hasUrl, hx]
    · simp only [stableInsert, if_neg h]

theorem filter_stable_sort {U R : Type} [LinearOrder U] (u : U)
    (l : List (URLRequestSummary U R)) :
    (stable_sort lessByUrl l).filter (hasUrl u) = l.filter (hasUrl u) := by
  induction l with
  | nil => rfl
  | cons x xs ih =>
    simp only [stable_sort]
    rw [filter_stableInsert, List.filter_cons, List.filter_cons, ih]

theorem stableInsert_sorted {U R : Type} [LinearOrder U] (x : URLRequestSummary U R)
    (l : List (URLRequestSummary U R))
    (hl : l.Pairwise (fun a b => a.resource_url ≤ b.resource_url)) :
    (stableInsert lessByUrl x l).Pairwise (fun a b => a.resource_url ≤ b.resource_url) := by
  induction l with
  | nil => simp [stableInsert]
  | cons y ys ih =>
    obtain ⟨h1, h2⟩ := List.pairwise_cons.mp hl
    by_cases h : lessByUrl y x = true
    · have hlt : y.resource_url < x.resource_url := by simpa [lessByUrl] using h
      simp only [stableInsert, if_pos h]
      refine List.pairwise_cons.mpr ⟨fun e he => ?_, ih h2⟩
      rcases (mem_stableInsert _ _ _ _).mp he with he | he
      · rw [he]
        exact le_of_lt hlt
      · exact h1 e he
    · have hle : x.resource_url ≤ y.resource_url := by
        have : ¬ y.resource_url < x.resource_url := by simpa [lessByUrl] using h
        exact not_lt.mp this
      simp only [stableInsert, if_neg h]
      refine List.pairwise_cons.mpr ⟨fun e he => ?_, hl⟩
      rcases List.mem_cons.mp he with he | he
      · rw [he]
        exact hle
      · exact le_trans hle (h1 e he)

theorem stable_sort_sorted {U R : Type} [LinearOrder U] (l : List (URLRequestSummary U R)) :
    (stable_sort lessByUrl l).Pairwise (fun a b => a.resource_url ≤ b.resource_url) := by
  induction l with
  | nil => exact List.Pairwise.nil
  | cons x xs ih => exact stableInsert_sorted x _ ih

theorem uniqueFrom_sorted {U R : Type} [LinearOrder U] (l : List (URLRequestSummary U R)) :
    ∀ last : URLRequestSummary U R,
      l.Pairwise (fun a b => a.resource_url ≤ b.resource_url) →
      (∀ e ∈ l, last.resource_url ≤ e.resource_url) →
      (uniqueFrom sameUrl last l).Pairwise (fun a b => a.resource_url < b.resource_url) ∧
        ∀ e ∈ uniqueFrom sameUrl last l, last.resource_url < e.resource_url := by
  induction l with
  | nil =>
    intro last _ _
    exact ⟨List.Pairwise.nil, fun e he => absurd he (List.not_mem_nil _)⟩
  | cons y ys ih =>
    intro last hl hlast
    obtain ⟨h1, h2⟩ := List.pairwise_cons.mp hl
    by_cases h : sameUrl last y = true
    · simp only [uniqueFrom, if_pos h]
      exact ih last h2 (fun e he => hlast e (List.mem_cons_of_mem _ he))
    · have hne : last.resource_url ≠ y.resource_url := by simpa [sameUrl] using h
      have hlt : last.resource_url < y.resource_url :=
        lt_of_le_of_ne (hlast y (List.mem_cons_self _ _)) hne
      simp only [uniqueFrom, if_neg h]
      obtain ⟨ih1, ih2⟩ := ih y h2 h1
      refine ⟨List.pairwise_cons.mpr ⟨ih2, ih1⟩, fun e he => ?_⟩
      rcases List.mem_cons.mp he with he | he
      · rw [he]
        exact hlt
      · exact lt_trans hlt (ih2 e he)

theorem filter_uniqueFrom {U R : Type} [LinearOrder U] (u : U)
    (l : List (URLRequestSummary U R)) :
    ∀ last : URLRequestSummary U R,
      l.Pairwise (fun a b => a.resource_url ≤ b.resource_url) →
      (∀ e ∈ l, last.resource_url ≤ e.resource_url) →
      (uniqueFrom sameUrl last l).filter (hasUrl u)
        = if last.resource_url = u then [] else ((l.filter (hasUrl u)).head?).toList := by
  induction l with
  | nil =>
    intro last _ _
    by_cases hu : last.resource_url = u <;> simp [uniqueFrom, hu]
  | cons y ys ih =>
    intro last hl hlast
    obtain ⟨h1, h2⟩ := List.pairwise_cons.mp hl
    by_cases h : sameUrl last y = true
    · have heq : last.resource_url = y.resource_url := by simpa [sameUrl] using h
      simp only [uniqueFrom, if_pos h]
      rw [ih last h2 (fun e he => hlast e (List.mem_cons_of_mem _ he))]
      by_cases hu : last.resource_url = u
      · simp [hu]
      · have hy : ¬ y.resource_url = u := fun hy => hu (heq.trans hy)
        simp [hu, List.filter_cons, hasUrl, hy]
    · have hne : last.resource_url ≠ y.resource_url := by simpa [sameUrl] using h
      have hlt : last.resource_url < y.resource_url :=
        lt_of_le_of_ne (hlast y (List.mem_cons_self _ _)) hne
      simp only [uniqueFrom, if_neg h]
      rw [List.filter_cons, ih y h2 h1]
      by_cases hy : y.resource_url = u
      · have hu : ¬ last.resource_url = u := fun hu => hne (hu.trans hy.symm)
        simp [hu, List.filter_cons, hasUrl, hy]
      · by_cases hu : last.resource_url = u
        · have hnone : ys.filter (hasUrl u) = [] := by
            rw [List.filter_eq_nil_iff]
            intro e he hcontra
            have he2 : e.resource_url = u := by simpa [hasUrl] using hcontra
            have hlt2 : y.resource_url ≤ e.resource_url := h1 e he
            rw [he2, ← hu] at hlt2
            exact absurd hlt (not_lt.mpr hlt2)
          simp [hu, hasUrl, hy, hnone]
        · simp [hu, List.filter_cons, hasUrl, hy]

theorem filter_unique {U R : Type} [LinearOrder U] (u : U) (l : List (URLRequestSummary U R))
    (hl : l.Pairwise (fun a b => a.resource_url ≤ b.resource_url)) :
    (unique sameUrl l).filter (hasUrl u) = ((l.filter (hasUrl u)).head?).toList := by
  cases l with
  | nil => rfl
  | cons x xs =>
    obtain ⟨h1, h2⟩ := List.pairwise_cons.mp hl
    simp only [unique]
    rw [List.filter_cons, filter_uniqueFrom u xs x h2 h1]
    by_cases hx : x.resource_url = u
    · simp [List.filter_cons, hasUrl, hx]
    · simp [List.filter_cons, hasUrl, hx]

theorem unique_sorted {U R : Type} [LinearOrder U] (l : List (URLRequestSummary U R))
    (hl : l.Pairwise (fun a b => a.resource_url ≤ b.resource_url)) :
    (unique sameUrl l).Pairwise (fun a b => a.resource_url < b.resource_url) := by
  cases l with
  | nil => exact List.Pairwise.nil
  | cons x xs =>
    obtain ⟨h1, h2⟩ := List.pairwise_cons.mp hl
    obtain ⟨h3, h4⟩ := uniqueFrom_sorted xs x h2 h1
    exact List.pairwise_cons.mpr ⟨h4, h3⟩

theorem filter_RemoveDuplicateSubresources {U R : Type} [LinearOrder U] (u : U)
    (subresources : List (URLRequestSummary U R)) :
    (RemoveDuplicateSubresources subresources).filter (hasUrl u)
      = ((subresources.filter (hasUrl u)).head?).toList := by
  unfold RemoveDuplicateSubresources
  rw [filter_unique u _ (stable_sort_sorted subresources), filter_stable_sort]

theorem head?_filter_eq_find? {α : Type} (p : α → Bool) (l : List α) :
    (l.filter p).head? = l.find? p := by
  induction l with
  | nil => rfl
  | cons x xs ih =>
    by_cases h : p x = true
    · simp [List.filter_cons, List.find?_cons, h]
    · simp [List.filter_cons, List.find?_cons, h, ih]

theorem RemoveDuplicateSubresources_first {U R : Type} [LinearOrder U]
    (subresources : List (URLRequestSummary U R)) (e : URLRequestSummary U R)
    (he : e ∈ RemoveDuplicateSubresources subresources) :
    subresources.find? (hasUrl e.resource_url) = some e := by
  have h1 : e ∈ (RemoveDuplicateSubresources subresources).filter (hasUrl e.resource_url) :=
    List.mem_filter.mpr ⟨he, by simp [hasUrl]⟩
  rw [filter_RemoveDuplicateSubresources] at h1
  rw [← head?_filter_eq_find?]
  cases hh : (subresources.filter (hasUrl e.resource_url)).head? with
  | none =>
    rw [hh] at h1
    exact absurd h1 (by simp)
  | some y =>
    rw [hh] at h1
    have : e = y := by simpa using h1
    rw [this]

theorem RemoveDuplicateSubresources_sample :
    RemoveDuplicateSubresources sampleSubresources
      = [{ resource_url := 1, rest := 20 }, { resource_url := 2, rest := 10 }] := by
  decide

/-- C23: for every list of URL request summaries, `RemoveDuplicateSubresources` leaves a
list that is strictly increasing by `resource_url` (so sorted, and no two entries have the
same URL), whose URLs are exactly the URLs that occur in the input, and in which the entry
for each URL is the element that occurs first in the input with that URL. -/
theorem RemoveDuplicateSubresources_spec {U R : Type} [LinearOrder U]
    (subresources : List (URLRequestSummary U R)) :
    (RemoveDuplicateSubresources subresources).Pairwise
        (fun a b => a.resource_url < b.resource_url) ∧
      (∀ u, u ∈ (RemoveDuplicateSubresources subresources).map (fun x => x.resource_url) ↔
        u ∈ subresources.map (fun x => x.resource_url)) ∧
      (∀ e ∈ RemoveDuplicateSubresources subresources,
        subresources.find? (hasUrl e.resource_url) = some e) ∧
      (∀ x ∈ subresources, ∃ e ∈ RemoveDuplicateSubresources subresources,
        subresources.find? (hasUrl x.resource_url) = some e) := by
  have hkeep : ∀ x ∈ subresources, ∃ e ∈ RemoveDuplicateSubresources subresources,
      subresources.find? (hasUrl x.resource_url) = some e := by
    intro x hx
    have hmem : x ∈ subresources.filter (hasUrl x.resource_url) :=
      List.mem_filter.mpr ⟨hx, by simp [hasUrl]⟩
    cases hh : (subresources.filter (hasUrl x.resource_url)).head? with
    | none =>
      rw [List.head?_eq_none_iff] at hh
      rw [hh] at hmem
      exact absurd hmem (List.not_mem_nil _)
    | some y =>
      have hy : y ∈ (RemoveDuplicateSubresources subresources).filter
          (hasUrl x.resource_url) := by
        rw [filter_RemoveDuplicateSubresources, hh]
        simp
      refine ⟨y, (List.mem_filter.mp hy).1, ?_⟩
      rw [← head?_filter_eq_find?, hh]
  refine ⟨unique_sorted _ (stable_sort_sorted subresources), fun u => ⟨fun h => ?_, fun h => ?_⟩,
    fun e he => RemoveDuplicateSubresources_first subresources e he, hkeep⟩
  · obtain ⟨e, he, heu⟩ := List.mem_map.mp h
    have hfind := RemoveDuplicateSubresources_first subresources e he
    exact List.mem_map.mpr ⟨e, List.mem_of_find?_eq_some hfind, heu⟩
  · obtain ⟨x, hx, hxu⟩ := List.mem_map.mp h
    obtain ⟨e, he, hfind⟩ := hkeep x hx
    have hp := List.find?_some hfind
    have heu : e.resource_url = x.resource_url := by simpa [hasUrl] using hp
    exact List.mem_map.mpr ⟨e, he, heu.trans hxu⟩

end predictors

/-! ## `resource_prefetch_predictor_browsertest.cc`: redirect chains -/

namespace predictors

theorem RedirectMap.find_head_self {U : Type} [DecidableEq U] (k : U) (v : RedirectEdge U)
    (rest : RedirectMap U) : RedirectMap.find ((k, v) :: rest) k = some v := by
  simp only [RedirectMap.find, if_true]

theorem RedirectMap.find_head_ne {U : Type} [DecidableEq U] (k url : U) (v : RedirectEdge U)
    (rest : RedirectMap U) (h : k ≠ url) :
    RedirectMap.find ((k, v) :: rest) url = RedirectMap.find rest url := by
  simp only [RedirectMap.find, if_neg h]

theorem RedirectMap.find_append {U : Type} [DecidableEq U] (m n : RedirectMap U) (url : U) :
    RedirectMap.find (m ++ n) url
      = match RedirectMap.find m url with
        | some v => some v
        | none => RedirectMap.find n url := by
  induction m with
  | nil => rfl
  | cons x rest ih =>
    obtain ⟨k, v⟩ := x
    by_cases hk : k = url
    · subst hk
      simp only [List.cons_append, RedirectMap.find_head_self]
    · simp only [List.cons_append, RedirectMap.find_head_ne _ _ _ _ hk, ih]

theorem RedirectMap.find_mem_keys {U : Type} [DecidableEq U] (m : RedirectMap U) (url : U)
    (e : RedirectEdge U) (h : RedirectMap.find m url = some e) : url ∈ m.map Prod.fst := by
  induction m with
  | nil => exact absurd h (by simp [RedirectMap.find])
  | cons x rest ih =>
    obtain ⟨k, v⟩ := x
    by_cases hk : k = url
    · subst hk
      simp
    · rw [RedirectMap.find_head_ne _ _ _ _ hk] at h
      exact List.mem_cons_of_mem _ (ih h)

theorem RedirectMap.find_insert_of_some {U : Type} [DecidableEq U] (m : RedirectMap U)
    (k url : U) (e v : RedirectEdge U) (h : RedirectMap.find m url = some v) :
    RedirectMap.find (RedirectMap.insert m k e) url = some v := by
  unfold RedirectMap.insert
  cases hk : RedirectMap.find m k with
  | some w => exact h
  | none =>
    simp only []
    rw [RedirectMap.find_append, h]

theorem RedirectMap.find_insert_self {U : Type} [DecidableEq U] (m : RedirectMap U)
    (k : U) (e : RedirectEdge U) (h : RedirectMap.find m k = none) :
    RedirectMap.find (RedirectMap.insert m k e) k = some e := by
  unfold RedirectMap.insert
  rw [h]
  simp only []
  rw [RedirectMap.find_append, h]
  exact RedirectMap.find_head_self _ _ _

theorem RedirectMap.find_insert_ne {U : Type} [DecidableEq U] (m : RedirectMap U)
    (k url : U) (e : RedirectEdge U) (h : k ≠ url) :
    RedirectMap.find (RedirectMap.insert m k e) url = RedirectMap.find m url := by
  unfold RedirectMap.insert
  cases hk : RedirectMap.find m k with
  | some w => rfl
  | none =>
    simp only []
    rw [RedirectMap.find_append]
    cases RedirectMap.find m url with
    | some v => rfl
    | none => exact RedirectMap.find_head_ne _ _ _ _ h

theorem AddRedirectChainFrom_keeps {U : Type} [DecidableEq U] (chain : List (RedirectEdge U)) :
    ∀ (m : RedirectMap U) (current url : U) (v : RedirectEdge U),
      RedirectMap.find m url = some v →
      RedirectMap.find (AddRedirectChainFrom m current chain) url = some v := by
  induction chain with
  | nil => exact fun m current url v h => h
  | cons e rest ih =>
    intro m current url v h
    exact ih _ _ _ _ (RedirectMap.find_insert_of_some m current url e v h)

theorem GetRedirectEndpoint_chain {U : Type} [DecidableEq U] (chain : List (RedirectEdge U)) :
    ∀ (m : RedirectMap U) (current : U),
      (chain.map (fun e => e.url)).Nodup →
      current ∉ chain.map (fun e => e.url) →
      (∀ k, k = current ∨ k ∈ chain.map (fun e => e.url) → RedirectMap.find m k = none) →
      GetRedirectEndpoint (AddRedirectChainFrom m current chain) (chain.length + 1) current
        = some (((chain.getLast?).map (fun e => e.url)).getD current) := by
  induction chain with
  | nil =>
    intro m current _ _ hfree
    simp only [AddRedirectChainFrom, List.length_nil, GetRedirectEndpoint,
      hfree current (Or.inl rfl)]
    rfl
  | cons e rest ih =>
    intro m current hnodup hcur hfree
    rw [List.map_cons, List.nodup_cons] at hnodup
    rw [List.map_cons, List.mem_cons, not_or] at hcur
    have hfind : RedirectMap.find (AddRedirectChainFrom m current (e :: rest)) current
        = some e :=
      AddRedirectChainFrom_keeps rest _ _ _ _
        (RedirectMap.find_insert_self m current e (hfree current (Or.inl rfl)))
    have hih := ih (RedirectMap.insert m current e) e.url hnodup.2 hnodup.1 (by
      intro k hk
      have hkc : current ≠ k := by
        rcases hk with hk | hk
        · rw [hk]
          exact hcur.1
        · exact fun h => hcur.2 (h ▸ hk)
      rw [RedirectMap.find_insert_ne m current k e hkc]
      apply hfree k
      right
      rw [List.map_cons, List.mem_cons]
      exact hk)
    rw [List.length_cons, GetRedirectEndpoint, hfind]
    simp only []
    have hchain : AddRedirectChainFrom m current (e :: rest)
        = AddRedirectChainFrom (RedirectMap.insert m current e) e.url rest := rfl
    rw [hchain, hih, List.getLast?_cons]
    cases rest.getLast? <;> rfl

theorem GetRedirectEndpoint_mono {U : Type} [DecidableEq U] (m : RedirectMap U) (fuel : Nat) :
    ∀ (current r : U) (extra : Nat), GetRedirectEndpoint m fuel current = some r →
      GetRedirectEndpoint m (fuel + extra) current = some r := by
  induction fuel with
  | zero =>
    intro current r extra h
    exact absurd h (by simp [GetRedirectEndpoint])
  | succ k ih =>
    intro current r extra h
    rw [Nat.add_right_comm]
    rw [GetRedirectEndpoint] at h ⊢
    cases hf : RedirectMap.find m current with
    | none =>
      rw [hf] at h
      exact h
    | some e =>
      rw [hf] at h
      exact ih _ _ _ h

theorem GetRedirectEndpoint_sound {U : Type} [DecidableEq U] (m : RedirectMap U) (fuel : Nat) :
    ∀ (current r : U), GetRedirectEndpoint m fuel current = some r →
      Redirects m current r ∧ RedirectMap.find m r = none := by
  induction fuel with
  | zero =>
    intro current r h
    exact absurd h (by simp [GetRedirectEndpoint])
  | succ k ih =>
    intro current r h
    rw [GetRedirectEndpoint] at h
    cases hf : RedirectMap.find m current with
    | none =>
      rw [hf] at h
      have hr : current = r := Option.some.inj h
      subst hr
      exact ⟨Relation.ReflTransGen.refl, hf⟩
    | some e =>
      rw [hf] at h
      obtain ⟨h1, h2⟩ := ih _ _ h
      exact ⟨Relation.ReflTransGen.head ⟨e, hf, rfl⟩ h1, h2⟩

theorem Redirects_unique {U : Type} [DecidableEq U] (m : RedirectMap U) (a v : U)
    (hv : Redirects m a v) (hvn : RedirectMap.find m v = none) :
    ∀ w, Redirects m a w → RedirectMap.find m w = none → w = v := by
  induction hv using Relation.ReflTransGen.head_induction_on with
  | refl =>
    intro w hw _
    rcases Relation.ReflTransGen.cases_head hw with h | ⟨c, ⟨e, he, _⟩, _⟩
    · exact h.symm
    · rw [hvn] at he
      exact absurd he (by simp)
  | head hstep _ ih =>
    intro w hw hwn
    obtain ⟨e, he, hec⟩ := hstep
    rcases Relation.ReflTransGen.cases_head hw with h | ⟨c2, ⟨e2, he2, hec2⟩, hrest⟩
    · rw [← h, he] at hwn
      exact absurd hwn (by simp)
    · rw [he] at he2
      have : e = e2 := Option.some.inj he2
      subst this
      rw [← hec2, hec] at hrest
      exact ih w hrest hwn

theorem GetRedirectEndpoint_terminates_aux {U : Type} [DecidableEq U] (m : RedirectMap U)
    (initial_url : U) (hno : NoCycleFrom m initial_url) (k : Nat) :
    ∀ (avoid : List U) (current : U), avoid.Nodup →
      (∀ a ∈ avoid, a ∈ m.map Prod.fst) →
      (∀ a ∈ avoid, Relation.TransGen (RedirectStep m) a current) →
      (∀ a ∈ avoid, Redirects m initial_url a) →
      Redirects m initial_url current →
      m.length < avoid.length + k →
      ∃ r, GetRedirectEndpoint m k current = some r := by
  induction k with
  | zero =>
    intro avoid current hnd hkeys _ _ _ hlen
    have hle : avoid.length ≤ (m.map Prod.fst).length :=
      (List.subperm_of_subset hnd hkeys).length_le
    rw [List.length_map] at hle
    omega
  | succ k ih =>
    intro avoid current hnd hkeys hreach hinit hcur hlen
    rw [GetRedirectEndpoint]
    cases hf : RedirectMap.find m current with
    | none => exact ⟨current, rfl⟩
    | some e =>
      have hstep : RedirectStep m current e.url := ⟨e, hf, rfl⟩
      have hnotin : current ∉ avoid := fun h => hno current hcur (hreach current h)
      apply ih (current :: avoid) e.url (List.nodup_cons.mpr ⟨hnotin, hnd⟩)
      · intro a ha
        rcases List.mem_cons.mp ha with ha | ha
        · rw [ha]
          exact RedirectMap.find_mem_keys m current e hf
        · exact hkeys a ha
      · intro a ha
        rcases List.mem_cons.mp ha with ha | ha
        · rw [ha]
          exact Relation.TransGen.single hstep
        · exact Relation.TransGen.tail (hreach a ha) hstep
      · intro a ha
        rcases List.mem_cons.mp ha with ha | ha
        · rw [ha]
          exact hcur
        · exact hinit a ha
      · exact Relation.ReflTransGen.tail hcur hstep
      · rw [List.length_cons]
        omega

theorem RedirectMap.find_mem_pair {U : Type} [DecidableEq U] (m : RedirectMap U) (url : U)
    (e : RedirectEdge U) (h : RedirectMap.find m url = some e) : (url, e) ∈ m := by
  induction m with
  | nil => exact absurd h (by simp [RedirectMap.find])
  | cons x rest ih =>
    obtain ⟨k, v⟩ := x
    by_cases hk : k = url
    · subst hk
      rw [RedirectMap.find_head_self] at h
      rw [Option.some.inj h]
      exact List.mem_cons_self _ _
    · rw [RedirectMap.find_head_ne _ _ _ _ hk] at h
      exact List.mem_cons_of_mem _ (ih h)

theorem NoCycleFrom_of_increasing {U : Type} [LinearOrder U] (m : RedirectMap U)
    (initial_url : U) (h : ∀ p ∈ m, p.1 < p.2.url) : NoCycleFrom m initial_url := by
  intro u _ hcycle
  have hlt : ∀ a b, Relation.TransGen (RedirectStep m) a b → a < b := by
    intro a b hab
    induction hab with
    | single hstep =>
      obtain ⟨e, he, heb⟩ := hstep
      rw [← heb]
      exact h _ (RedirectMap.find_mem_pair m _ e he)
    | tail _ hstep ih =>
      obtain ⟨e, he, heb⟩ := hstep
      rw [← heb]
      exact lt_trans ih (h _ (RedirectMap.find_mem_pair m _ e he))
  exact lt_irrefl u (hlt u u hcycle)

/-- C24: for a redirect map with no cycle reachable from `initial_url`, the loop of
`GetRedirectEndpoint(initial_url)` terminates (it has returned after at most one lookup
more than the map has entries, and more fuel does not change the result) and returns a URL
`endpoint` that is reached from `initial_url` by following redirects, has no entry in the
map, and is the only such URL; it is `initial_url` itself when that has no redirect. In
particular, after `AddRedirectChain(initial, chain)` on an empty map, with a non-empty
chain of pairwise distinct URLs all different from `initial`, `GetRedirectEndpoint(initial)`
returns the URL of the last edge of the chain. -/
theorem GetRedirectEndpoint_spec {U : Type} [DecidableEq U] (redirects : RedirectMap U)
    (initial_url : U) (hno : NoCycleFrom redirects initial_url) (initial : U)
    (chain : List (RedirectEdge U)) (hne : chain ≠ [])
    (hnodup : (chain.map (fun e => e.url)).Nodup)
    (hinit : initial ∉ chain.map (fun e => e.url)) :
    (∃ endpoint,
      (∀ fuel, redirects.length + 1 ≤ fuel →
        GetRedirectEndpoint redirects fuel initial_url = some endpoint) ∧
      (∀ fuel r, GetRedirectEndpoint redirects fuel initial_url = some r → r = endpoint) ∧
      Redirects redirects initial_url endpoint ∧
      RedirectMap.find redirects endpoint = none ∧
      (∀ w, Redirects redirects initial_url w → RedirectMap.find redirects w = none →
        w = endpoint) ∧
      (RedirectMap.find redirects initial_url = none → endpoint = initial_url)) ∧
    (∀ fuel, chain.length + 1 ≤ fuel →
      GetRedirectEndpoint (AddRedirectChain [] initial chain) fuel initial
        = some (chain.getLast hne).url) := by
  constructor
  · obtain ⟨endpoint, hend⟩ := GetRedirectEndpoint_terminates_aux redirects initial_url hno
      (redirects.length + 1) [] initial_url List.nodup_nil
      (fun a ha => absurd ha (List.not_mem_nil _))
      (fun a ha => absurd ha (List.not_mem_nil _))
      (fun a ha => absurd ha (List.not_mem_nil _))
      Relation.ReflTransGen.refl (by simp)
    obtain ⟨hreach, hnone⟩ := GetRedirectEndpoint_sound redirects _ _ _ hend
    have huniq := Redirects_unique redirects initial_url endpoint hreach hnone
    refine ⟨endpoint, fun fuel hfuel => ?_, fun fuel r hr => ?_, hreach, hnone, huniq,
      fun h0 => ?_⟩
    · obtain ⟨extra, hextra⟩ := Nat.exists_eq_add_of_le hfuel
      rw [hextra]
      exact GetRedirectEndpoint_mono redirects _ _ _ extra hend
    · obtain ⟨h1, h2⟩ := GetRedirectEndpoint_sound redirects _ _ _ hr
      exact huniq r h1 h2
    · exact (huniq initial_url Relation.ReflTransGen.refl h0).symm
  · intro fuel hfuel
    have hchain := GetRedirectEndpoint_chain chain [] initial hnodup hinit
      (fun k _ => rfl)
    obtain ⟨extra, hextra⟩ := Nat.exists_eq_add_of_le hfuel
    rw [hextra]
    have hlast : ((chain.getLast?).map (fun e => e.url)).getD initial
        = (chain.getLast hne).url := by
      rw [List.getLast?_eq_getLast chain hne]
      rfl
    rw [hlast] at hchain
    exact GetRedirectEndpoint_mono _ _ _ _ extra hchain

/-- An instance of C24: the chain of the test `LearningAfterRedirectChain`, from URL 0
through 1 and 2 to 3; the map it builds has no cycle since every redirect leads to a
larger number. -/
theorem GetRedirectEndpoint_spec_witness :
    GetRedirectEndpoint (AddRedirectChain [] 0 sampleChain) 4 0 = some 3 ∧
      (∃ endpoint,
        (∀ fuel, (AddRedirectChain [] 0 sampleChain).length + 1 ≤ fuel →
          GetRedirectEndpoint (AddRedirectChain [] 0 sampleChain) fuel 0 = some endpoint) ∧
        (∀ fuel r, GetRedirectEndpoint (AddRedirectChain [] 0 sampleChain) fuel 0 = some r →
          r = endpoint) ∧
        Redirects (AddRedirectChain [] 0 sampleChain) 0 endpoint ∧
        RedirectMap.find (AddRedirectChain [] 0 sampleChain) endpoint = none ∧
        (∀ w, Redirects (AddRedirectChain [] 0 sampleChain) 0 w →
          RedirectMap.find (AddRedirectChain [] 0 sampleChain) w = none → w = endpoint) ∧
        (RedirectMap.find (AddRedirectChain [] 0 sampleChain) 0 = none → endpoint = 0)) ∧
      (∀ fuel, sampleChain.length + 1 ≤ fuel →
        GetRedirectEndpoint (AddRedirectChain [] 0 sampleChain) fuel 0
          = some (sampleChain.getLast (by decide)).url) :=
  ⟨by decide,
    GetRedirectEndpoint_spec (AddRedirectChain [] 0 sampleChain) 0
      (NoCycleFrom_of_increasing _ 0 (by decide)) 0 sampleChain (by decide) (by decide)
      (by decide)⟩

end predictors
